import Mathlib

/-!
# Verification of the TypedAPI contract-validation engine

Shallow embedding of `src/TypedAPIAdapter.ts` (craftapit/typedapi-tester-addon).

The adapter operates on dynamically-typed JavaScript values extracted from a
contract source file.  We model JavaScript values with `JSValue`, objects as
association lists (JavaScript objects cannot hold duplicate keys, so the lists
representing extracted objects are assumed key-nodup where a count matters),
and the absent/`undefined` case with `Option`.

The TypeScript front-end (parsing a contract module and extracting the literal
`Contract` object, `readContract`'s AST walk) is an external collaborator from
the point of view of every claim below; it is modelled as an abstract
deterministic function `Adapter.extract : String → String → ExtractResult`
from the resolved path and the raw file text.  The file system is modelled as
`Adapter.fs : String → Except String String` (the `Except.error` message being
the I/O error's text).  JavaScript runtime exceptions (calling a method of a
non-string, reading a property of `null`/`undefined`, destructuring `null`)
are modelled with `Except String` carrying the engine's message; every public
operation catches them, as in the source (`try`/`catch` blocks converting a
thrown fault into a failed result).
-/

/-- A JavaScript value as produced by `extractContractDetails`:
string/number/boolean/null literals, nested objects and arrays.
(`undefined` is represented by `Option.none` at use sites.) -/
inductive JSValue where
  | null : JSValue
  | bool : Bool → JSValue
  | num : Int → JSValue
  | str : String → JSValue
  | obj : List (String × JSValue) → JSValue
  | arr : List JSValue → JSValue

/-- An extracted contract object: field name ↦ value, in declaration order. -/
abbrev JSObject := List (String × JSValue)

/-- JavaScript truthiness of a value (`if (v)`). -/
def jsTruthyV : JSValue → Bool
  | .null => false
  | .bool b => b
  | .num n => n != 0
  | .str s => s != ""
  | .obj _ => true
  | .arr _ => true

/-- JavaScript truthiness of a possibly-`undefined` value. -/
def jsTruthy : Option JSValue → Bool
  | none => false
  | some v => jsTruthyV v

/-- First binding of a key in an association list (JS property lookup). -/
def jsLookupList (fs : List (String × JSValue)) (k : String) : Option JSValue :=
  (fs.find? (fun p => p.1 == k)).map (·.2)

/-- Property lookup on a contract object. -/
def jsLookup (c : JSObject) (k : String) : Option JSValue := jsLookupList c k

/-- Value of a decimal digit string. -/
def digitsVal (ds : List Char) : Nat :=
  ds.foldl (fun a c => a * 10 + (c.toNat - '0'.toNat)) 0

/-- A canonical array index string: "0", or digits without a leading zero. -/
def canonicalIndex (s : String) : Option Nat :=
  match s.data with
  | [] => none
  | ['0'] => some 0
  | c :: cs =>
    if c.isDigit && c != '0' && cs.all Char.isDigit then some (digitsVal (c :: cs))
    else none

/-- JavaScript property access `v[k]` on a non-null value.  Reading any
property of a number or boolean yields `undefined`; strings and arrays expose
`length` and their indices.  (Never applied to `null` in the embedding: the
sites where the source could read a property of `null`/`undefined` throw and
are modelled with `Except` instead.) -/
def jsGetProp : JSValue → String → Option JSValue
  | .obj fs, k => jsLookupList fs k
  | .arr es, k =>
    if k == "length" then some (.num es.length)
    else match canonicalIndex k with
      | some i => es.get? i
      | none => none
  | .str s, k =>
    if k == "length" then some (.num s.length)
    else match canonicalIndex k with
      | some i => (s.data.get? i).map (fun ch => .str (String.mk [ch]))
      | none => none
  | _, _ => none

/-- `Object.keys`: field names of an object, index strings of an array or a
string, empty for primitives. -/
def jsObjectKeys : JSValue → List String
  | .obj fs => fs.map (·.1)
  | .arr es => (List.range es.length).map toString
  | .str s => (List.range s.length).map toString
  | _ => []

/-- `typeof v === 'object'` (true for objects, arrays and `null`). -/
def jsTypeofObject : JSValue → Bool
  | .null => true
  | .obj _ => true
  | .arr _ => true
  | _ => false

/-- `Array.isArray`. -/
def jsIsArray : JSValue → Bool
  | .arr _ => true
  | _ => false

/-- Is the value a string (for `typeof v === 'string'`). -/
def jsIsString : JSValue → Bool
  | .str _ => true
  | _ => false

mutual

/-- JavaScript `String(v)` / template-literal interpolation of a value. -/
def jsToString : JSValue → String
  | .null => "null"
  | .bool true => "true"
  | .bool false => "false"
  | .num n => toString n
  | .str s => s
  | .obj _ => "[object Object]"
  | .arr es => jsArrJoin es

/-- `Array.prototype.toString`: comma-joined elements. -/
def jsArrJoin : List JSValue → String
  | [] => ""
  | [v] => jsElemStr v
  | v :: vs => jsElemStr v ++ "," ++ jsArrJoin vs

/-- An element inside an array join (`null` joins as the empty string). -/
def jsElemStr : JSValue → String
  | .null => ""
  | .bool b => jsToString (.bool b)
  | .num n => jsToString (.num n)
  | .str s => s
  | .obj fs => jsToString (.obj fs)
  | .arr es => jsArrJoin es

end

/-- `parseInt(s, 10)`: skip leading whitespace, optional sign, then a maximal
run of decimal digits; `none` models `NaN`. -/
def jsParseInt10 (s : String) : Option Int :=
  let cs := s.data.dropWhile Char.isWhitespace
  let signed : Bool × List Char :=
    match cs with
    | '-' :: t => (true, t)
    | '+' :: t => (false, t)
    | t => (false, t)
  let ds := signed.2.takeWhile Char.isDigit
  if ds.isEmpty then none
  else
    let n : Int := (digitsVal ds : Nat)
    some (if signed.1 then -n else n)

/-- One hexadecimal digit. -/
def isHexDigitCh (c : Char) : Bool :=
  c.isDigit || ('a' ≤ c && c ≤ 'f') || ('A' ≤ c && c ≤ 'F')

def hexDigitsVal (ds : List Char) : Nat :=
  ds.foldl (fun a c =>
    a * 16 +
      (if c.isDigit then c.toNat - '0'.toNat
       else if 'a' ≤ c && c ≤ 'f' then c.toNat - 'a'.toNat + 10
       else c.toNat - 'A'.toNat + 10)) 0

/-- `parseInt(s)` without an explicit radix: like radix 10, but a `0x`/`0X`
prefix selects hexadecimal. -/
def jsParseIntAuto (s : String) : Option Int :=
  let cs := s.data.dropWhile Char.isWhitespace
  let signed : Bool × List Char :=
    match cs with
    | '-' :: t => (true, t)
    | '+' :: t => (false, t)
    | t => (false, t)
  match signed.2 with
  | '0' :: x :: t =>
    if x == 'x' || x == 'X' then
      let hs := t.takeWhile isHexDigitCh
      if hs.isEmpty then none
      else
        let n : Int := (hexDigitsVal hs : Nat)
        some (if signed.1 then -n else n)
    else
      let ds := ('0' :: x :: t).takeWhile Char.isDigit
      if ds.isEmpty then none
      else
        let n : Int := (digitsVal ds : Nat)
        some (if signed.1 then -n else n)
  | other =>
    let ds := other.takeWhile Char.isDigit
    if ds.isEmpty then none
    else
      let n : Int := (digitsVal ds : Nat)
      some (if signed.1 then -n else n)

/-- A character matched by the placeholder pattern `[a-zA-Z0-9_]`. -/
def isWordChar (c : Char) : Bool := c.isAlpha || c.isDigit || c == '_'

/-- Scanner for the global regex `\:[a-zA-Z0-9_]+` followed by `substring(1)`:
the `acc` state holds the reversed characters of a placeholder currently been
built (`some []` right after a `:`). -/
def pathParamsAux : List Char → Option (List Char) → List String
  | [], none => []
  | [], some acc => if acc.isEmpty then [] else [acc.reverse.asString]
  | c :: cs, none =>
    if c == ':' then pathParamsAux cs (some []) else pathParamsAux cs none
  | c :: cs, some acc =>
    if isWordChar c then pathParamsAux cs (some (c :: acc))
    else
      let rest := if c == ':' then pathParamsAux cs (some []) else pathParamsAux cs none
      if acc.isEmpty then rest else acc.reverse.asString :: rest

/-- `(path.match(/\:[a-zA-Z0-9_]+/g) || []).map(p => p.substring(1))`. -/
def extractPathParams (s : String) : List String := pathParamsAux s.data none

/-- `String.prototype.includes` (substring test). -/
def jsIncludesAux (sub : List Char) : List Char → Bool
  | [] => sub.isPrefixOf []
  | c :: cs => sub.isPrefixOf (c :: cs) || jsIncludesAux sub cs

def jsIncludes (s sub : String) : Bool := jsIncludesAux sub.data s.data

/-- ASCII upper-casing (`String.prototype.toUpperCase` on the method names). -/
def jsToUpper (s : String) : String := String.mk (s.data.map Char.toUpper)

/-- `path.startsWith('/')`. -/
def startsWithSlash (s : String) : Bool :=
  match s.data with
  | '/' :: _ => true
  | _ => false

-- basic sanity checks of the JS primitives (concrete evaluations)
example : extractPathParams "/users/:userId/items/:itemId" = ["userId", "itemId"] := by decide
example : extractPathParams "/users" = [] := by decide
example : jsParseInt10 "200" = some 200 := by decide
example : jsParseInt10 "200abc" = some 200 := by decide
example : jsParseInt10 "abc" = none := by decide
example : jsParseInt10 "-5" = some (-5) := by decide
example : jsParseIntAuto "0x1F4" = some 500 := by decide
example : jsIncludes "admin.api-key.get.contracts" "api-key" = true := by decide
example : jsIncludes "users" "api-key" = false := by decide
example : jsToUpper "post" = "POST" := by decide

/-! ## ValidationResult and diagnostic messages -/

/-- The `ValidationResult` record.  The source leaves `errors`/`warnings`
`undefined` exactly when they are empty, so plain lists lose no information;
`details` values may be `undefined` (`none`). -/
structure VResult where
  success : Bool
  errors : List String
  warnings : List String
  details : List (String × Option JSValue)

/-- `Missing required field: <f>` -/
def missingFieldMsg (f : String) : String := "Missing required field: " ++ f

/-- `Invalid method: <v>. Must be one of: get, post, put, delete, patch` -/
def invalidMethodMsg (v : String) : String :=
  "Invalid method: " ++ v ++ ". Must be one of: get, post, put, delete, patch"

/-- `Invalid path: <p>. Must start with /` -/
def invalidPathMsg (p : String) : String :=
  "Invalid path: " ++ p ++ ". Must start with /"

def emptyResponseMsg : String := "Response object must have at least one status code"

/-- `Invalid status code in response: <k>. Must be a valid HTTP status code (100-599)` -/
def invalidStatusMsg (k : String) : String :=
  "Invalid status code in response: " ++ k ++ ". Must be a valid HTTP status code (100-599)"

def rolesMsg : String := "Authorization roles must be a string or array of strings"

def scopesMsg : String := "Authorization scopes must be a string or array of strings"

def claimsNotArrayMsg : String := "Authorization claims must be an array"

/-- `Claim at index <i> is missing required field <f>` -/
def claimMissingMsg (i : Nat) (f : String) : String :=
  "Claim at index " ++ toString i ++ " is missing required field " ++ f

/-- `Path contains parameters (<ps>) but no params schema is defined` -/
def paramsSchemaWarnMsg (ps : List String) : String :=
  "Path contains parameters (" ++ String.intercalate ", " ps ++ ") but no params schema is defined"

/-- `Path contains parameters (<ps>) but no params object was provided` -/
def noParamsObjMsg (ps : List String) : String :=
  "Path contains parameters (" ++ String.intercalate ", " ps ++ ") but no params object was provided"

/-- `Missing required path parameter: <n>` -/
def missingParamMsg (n : String) : String := "Missing required path parameter: " ++ n

-- JavaScript engine messages for the runtime faults the source can hit
-- (caught by each operation's try/catch and turned into a failed result).

def undefReadMsg (prop : String) : String :=
  "Cannot read properties of undefined (reading \x27" ++ prop ++ "\x27)"

def nullReadMsg (prop : String) : String :=
  "Cannot read properties of null (reading \x27" ++ prop ++ "\x27)"

def matchNotFnMsg : String := "contract.path.match is not a function"

def startsWithNotFnMsg : String := "contract.path.startsWith is not a function"

def destructureNullMsg : String :=
  "Cannot destructure property \x27params\x27 of \x27request\x27 as it is null."

/-! ## validateContract (source lines 423-556) -/

/-- The fixed HTTP method enumeration (`['get','post','put','delete','patch']`). -/
def httpMethods : List String := ["get", "post", "put", "delete", "patch"]

/-- `['get',...].includes(v)` under strict equality: only a string can match. -/
def isHttpMethod (v : JSValue) : Bool :=
  match v with
  | .str s => httpMethods.contains s
  | _ => false

/-- Required-field check (lines 446-451): one error per falsy field, in the
fixed order path, method, response. -/
def requiredFieldErrors (c : JSObject) : List String :=
  ["path", "method", "response"].filterMap fun f =>
    if jsTruthy (jsLookup c f) then none else some (missingFieldMsg f)

/-- Method rule (lines 454-456). -/
def methodErrors (c : JSObject) : List String :=
  match jsLookup c "method" with
  | none => []
  | some v =>
    if jsTruthyV v && !(isHttpMethod v) then [invalidMethodMsg (jsToString v)] else []

/-- Leading-`/` rule (lines 459-461); calling `.startsWith` on a truthy
non-string throws. -/
def pathErrorsE (c : JSObject) : Except String (List String) :=
  match jsLookup c "path" with
  | none => .ok []
  | some v =>
    if jsTruthyV v then
      match v with
      | .str s => .ok (if startsWithSlash s then [] else [invalidPathMsg s])
      | _ => .error startsWithNotFnMsg
    else .ok []

/-- Does a response key parse (radix 10) to an integer in [100, 599]? -/
def validStatusKey (k : String) : Bool :=
  match jsParseInt10 k with
  | none => false
  | some n => 100 ≤ n && n ≤ 599

/-- Response-structure rule (lines 464-477). -/
def responseErrors (c : JSObject) : List String :=
  match jsLookup c "response" with
  | none => []
  | some v =>
    if jsTruthyV v && jsTypeofObject v then
      let keys := jsObjectKeys v
      if keys.isEmpty then [emptyResponseMsg]
      else keys.filterMap fun k =>
        if validStatusKey k then none else some (invalidStatusMsg k)
    else []

/-- One claim entry of `auth.authorization.claims` (lines 502-509); reading a
field of a `null` entry throws. -/
def claimFieldErrsE (i : Nat) (x : JSValue) : Except String (List String) :=
  match x with
  | .null => .error (nullReadMsg "userClaimPath")
  | _ =>
    .ok ((if jsTruthy (jsGetProp x "userClaimPath") then []
          else [claimMissingMsg i "userClaimPath"]) ++
         (if jsTruthy (jsGetProp x "routeParamName") then []
          else [claimMissingMsg i "routeParamName"]))

/-- `claims.forEach` with its running index. -/
def claimsListErrsE : Nat → List JSValue → Except String (List String)
  | _, [] => .ok []
  | i, x :: xs =>
    match claimFieldErrsE i x with
    | .error m => .error m
    | .ok e1 =>
      match claimsListErrsE (i + 1) xs with
      | .error m => .error m
      | .ok rest => .ok (e1 ++ rest)

/-- Roles/scopes rule (lines 483-494): a truthy value that is neither an
array nor a string is one error. -/
def rolesScopesErr (az : JSValue) (field msg : String) : List String :=
  match jsGetProp az field with
  | none => []
  | some r =>
    if jsTruthyV r && !(jsIsArray r) && !(jsIsString r) then [msg] else []

/-- Claims rule (lines 497-511): a truthy non-array is one error, an array is
checked entry by entry. -/
def claimsErrsE (az : JSValue) : Except String (List String) :=
  match jsGetProp az "claims" with
  | none => .ok []
  | some cl =>
    if jsTruthyV cl then
      match cl with
      | .arr l => claimsListErrsE 0 l
      | _ => .ok [claimsNotArrayMsg]
    else .ok []

/-- Auth rules (lines 480-513), in push order: roles, scopes, claims. -/
def authErrorsE (c : JSObject) : Except String (List String) :=
  match jsLookup c "auth" with
  | none => .ok []
  | some a =>
    if jsTruthyV a then
      match jsGetProp a "authorization" with
      | none => .ok []
      | some az =>
        if jsTruthyV az then
          match claimsErrsE az with
          | .error m => .error m
          | .ok ce =>
            .ok (rolesScopesErr az "roles" rolesMsg ++
                 rolesScopesErr az "scopes" scopesMsg ++ ce)
        else .ok []
    else .ok []

/-- Path-placeholder/params cross-check (lines 516-524), a warning only;
`path.match` on a truthy non-string throws. -/
def pathParamWarningsE (c : JSObject) : Except String (List String) :=
  match jsLookup c "path" with
  | none => .ok []
  | some v =>
    if jsTruthyV v then
      match v with
      | .str s =>
        let ps := extractPathParams s
        .ok (if !ps.isEmpty && !(jsTruthy (jsLookup c "params"))
             then [paramsSchemaWarnMsg ps] else [])
      | _ => .error matchNotFnMsg
    else .ok []

/-- `contract.tags ? (Array.isArray(tags) ? tags : [tags]) : []` (line 529). -/
def tagsOf (c : JSObject) : JSValue :=
  match jsLookup c "tags" with
  | none => .arr []
  | some v => if jsTruthyV v then (if jsIsArray v then v else .arr [v]) else .arr []

/-- `contract.summary || 'No summary provided'` (line 530). -/
def summaryOf (c : JSObject) : JSValue :=
  match jsLookup c "summary" with
  | none => .str "No summary provided"
  | some v => if jsTruthyV v then v else .str "No summary provided"

/-- `contract.response ? Object.keys(contract.response) : []` (line 546). -/
def respStatusesOf (c : JSObject) : List String :=
  match jsLookup c "response" with
  | none => []
  | some v => if jsTruthyV v then jsObjectKeys v else []

/-- `contract.auth?.requiresAuthentication === true` (line 547). -/
def requiresAuthOf (c : JSObject) : Bool :=
  match jsLookup c "auth" with
  | none => false
  | some .null => false
  | some a =>
    match jsGetProp a "requiresAuthentication" with
    | some (.bool true) => true
    | _ => false

/-- The `details` record of a successful-or-failed contract validation
(lines 536-548), in assignment order. -/
def contractDetails (nm rp : String) (c : JSObject) : List (String × Option JSValue) :=
  [("contractName", some (.str nm)),
   ("path", some (.str rp)),
   ("method", jsLookup c "method"),
   ("apiPath", jsLookup c "path"),
   ("tags", some (tagsOf c)),
   ("summary", some (summaryOf c)),
   ("hasParams", some (.bool (jsTruthy (jsLookup c "params")))),
   ("hasQuery", some (.bool (jsTruthy (jsLookup c "query")))),
   ("hasBody", some (.bool (jsTruthy (jsLookup c "body")))),
   ("responseStatuses", some (.arr ((respStatusesOf c).map .str))),
   ("requiresAuth", some (.bool (requiresAuthOf c)))]

/-- The rule engine of `validateContract` applied to an extracted contract
object: errors collected in the source's fixed order, not short-circuited;
a JavaScript fault aborts with the thrown message (caught by the wrapper). -/
def validateContractCore (nm rp : String) (c : JSObject) : Except String VResult :=
  match pathErrorsE c with
  | .error m => .error m
  | .ok pathErrs =>
    match authErrorsE c with
    | .error m => .error m
    | .ok authErrs =>
      match pathParamWarningsE c with
      | .error m => .error m
      | .ok warns =>
        let errors := requiredFieldErrors c ++ methodErrors c ++ pathErrs ++
          responseErrors c ++ authErrs
        .ok ⟨errors.isEmpty, errors, warns, contractDetails nm rp c⟩

/-! ## Source loader and the adapter environment -/

/-- What `readContract`'s AST walk yields for one file: the extracted
`Contract` object literal (if a declaration named `Contract` with an
object-literal initializer exists), whether a parsed source file is
available, and which well-known auxiliary declarations are present. -/
structure ExtractResult where
  contract : Option JSObject
  hasSource : Bool
  hasQuerySchema : Bool
  hasResponseSchema : Bool
  hasResponseType : Bool

/-- The engine instance: configured contracts root, the file system (error =
the I/O fault's message) and the TypeScript front-end, modelled as a
deterministic function of resolved path and raw text. -/
structure Adapter where
  contractsBasePath : String
  fs : String → Except String String
  extract : String → String → ExtractResult

/-- `path.isAbsolute` (POSIX). -/
def isAbsolutePath (p : String) : Bool := startsWithSlash p

/-- `resolveContractPath` (lines 269-275): absolute references unchanged,
otherwise joined with the contracts root (modelled as plain POSIX join,
without `..` normalization, which no claim depends on). -/
def resolveContractPath (base p : String) : String :=
  if isAbsolutePath p then p else base ++ "/" ++ p

/-- `Failed to read contract file <rp>: <m>` (line 349). -/
def readFailMsg (rp m : String) : String :=
  "Failed to read contract file " ++ rp ++ ": " ++ m

/-- Last `/`-separated component of a path (`path.basename`, modulo trailing
separators, which no claim exercises). -/
def lastComponent (p : String) : List Char :=
  (p.data.reverse.takeWhile (fun c => c != '/')).reverse

/-- `path.extname` of a basename: suffix from the last dot, empty when there
is no dot or the dot is the leading character. -/
def extSuffix (b : List Char) : List Char :=
  let afterDotRev := b.reverse.takeWhile (fun c => c != '.')
  if afterDotRev.length == b.length then []
  else if afterDotRev.length + 1 == b.length then []
  else '.' :: afterDotRev.reverse

/-- `path.basename(p, path.extname(p))`: the contract's display name. -/
def contractNameOf (p : String) : String :=
  let b := lastComponent p
  let e := extSuffix b
  String.mk (b.take (b.length - e.length))

/-- `readContract` (lines 280-351): resolve, read (a failed read throws the
wrapped message), then run the AST extraction. -/
def readContractM (A : Adapter) (p : String) : Except String (String × ExtractResult) :=
  let rp := resolveContractPath A.contractsBasePath p
  match A.fs rp with
  | .error m => .error (readFailMsg rp m)
  | .ok content => .ok (rp, A.extract rp content)

/-- The early return of lines 430-439 (no `Contract` export found). -/
def contractNotFoundResult (nm rp : String) : VResult :=
  ⟨false, ["Contract export not found in the file"], [],
   [("contractName", some (.str nm)), ("path", some (.str rp))]⟩

/-- `validateContract(contractPath)`: read, extract, run the rule engine,
catching every fault into a failed result (lines 550-555). -/
def validateContractRun (A : Adapter) (p : String) : VResult :=
  match readContractM A p with
  | .error m => ⟨false, ["Failed to validate contract: " ++ m], [], []⟩
  | .ok (rp, E) =>
    match E.contract with
    | none => contractNotFoundResult (contractNameOf p) rp
    | some c =>
      match validateContractCore (contractNameOf p) rp c with
      | .ok r => r
      | .error m => ⟨false, ["Failed to validate contract: " ++ m], [], []⟩

/-! ## validateRequestType (source lines 561-650) -/

def queryWarnMsg : String := "Contract has a query parameter but QuerySchema is not exported"

/-- `<METHOD> request typically requires a body schema` -/
def bodySchemaWarnMsg (m : String) : String :=
  jsToUpper m ++ " request typically requires a body schema"

/-- `contract.method === '<s>'` (strict equality: only a string matches). -/
def methodIs (c : JSObject) (s : String) : Bool :=
  match jsLookup c "method" with
  | some (.str t) => t == s
  | _ => false

/-- `['post','put','patch'].includes(contract.method)`, returning the matched
method name for the `toUpperCase` interpolation. -/
def bodyMethodOf (c : JSObject) : Option String :=
  match jsLookup c "method" with
  | some (.str s) => if ["post", "put", "patch"].contains s then some s else none
  | _ => none

/-- `contract.path.match(/\:[a-zA-Z0-9_]+/g)` applied without a truthiness
guard: throws when `path` is absent, `null`, or a non-string. -/
def jsPathMatchE (v : Option JSValue) : Except String (List String) :=
  match v with
  | none => .error (undefReadMsg "match")
  | some .null => .error (nullReadMsg "match")
  | some (.str s) => .ok (extractPathParams s)
  | some _ => .error matchNotFnMsg

/-- The early return of lines 568-577 (no contract or no parsed source). -/
def contractNotFound2Result (nm rp : String) : VResult :=
  ⟨false, ["Contract export not found in the file or could not parse source file"], [],
   [("contractName", some (.str nm)), ("path", some (.str rp))]⟩

/-- The rule body of `validateRequestType` on an extracted contract. -/
def validateRequestTypeCore (nm rp : String) (E : ExtractResult) (c : JSObject) :
    Except String VResult :=
  match jsPathMatchE (jsLookup c "path") with
  | .error m => .error m
  | .ok pathParams =>
    let baseDetails : List (String × Option JSValue) :=
      [("contractName", some (.str nm)), ("path", some (.str rp)),
       ("method", jsLookup c "method"), ("apiPath", jsLookup c "path")]
    -- lines 592-603: placeholder/params-schema cross-check (an error here)
    let part1 : List String × List (String × Option JSValue) :=
      if !pathParams.isEmpty then
        if !(jsTruthy (jsLookup c "params")) then
          ([paramsSchemaWarnMsg pathParams],
           [("pathParams", some (.arr (pathParams.map .str)))])
        else
          ([], [("pathParams", some (.arr (pathParams.map .str))),
                ("hasParamsSchema", some (.bool true))])
      else ([], [])
    -- lines 606-626: GET query schema cross-check
    let part2 : List String × List (String × Option JSValue) :=
      if methodIs c "get" && jsTruthy (jsLookup c "query") then
        (if E.hasQuerySchema then [] else [queryWarnMsg],
         [("hasQuerySchema", some (.bool true))])
      else ([], [])
    -- lines 629-635: body schema for post/put/patch
    let part3 : List String × List (String × Option JSValue) :=
      match bodyMethodOf c with
      | some m =>
        if !(jsTruthy (jsLookup c "body")) then ([bodySchemaWarnMsg m], [])
        else ([], [("hasBodySchema", some (.bool true))])
      | none => ([], [])
    .ok ⟨part1.1.isEmpty, part1.1, part2.1 ++ part3.1,
         baseDetails ++ part1.2 ++ part2.2 ++ part3.2⟩

/-- `validateRequestType(contractPath)` with its catch (lines 644-649). -/
def validateRequestTypeRun (A : Adapter) (p : String) : VResult :=
  match readContractM A p with
  | .error m => ⟨false, ["Failed to validate request type: " ++ m], [], []⟩
  | .ok (rp, E) =>
    match E.contract, E.hasSource with
    | some c, true =>
      match validateRequestTypeCore (contractNameOf p) rp E c with
      | .ok r => r
      | .error m => ⟨false, ["Failed to validate request type: " ++ m], [], []⟩
    | _, _ => contractNotFound2Result (contractNameOf p) rp

/-! ## validateResponseType (source lines 655-766) -/

def respRequiredMsg : String := "Response schema is required and must be an object"

def respAtLeastOneMsg : String := "Response object must define at least one status code"

def respSchemaWarnMsg : String :=
  "ResponseSchema is not exported, which may make it difficult to reuse"

def get200WarnMsg : String := "GET requests typically include a 200 response status"

def post201WarnMsg : String := "POST requests typically include a 201 or 200 response status"

/-- `<METHOD> requests typically include a 200 response status` -/
def putPatch200WarnMsg (m : String) : String :=
  jsToUpper m ++ " requests typically include a 200 response status"

def delete204WarnMsg : String := "DELETE requests typically include a 204 or 200 response status"

def noErrCodesWarnMsg : String := "No error response status codes defined (4xx, 5xx)"

def respTypeWarnMsg : String := "Response type is not exported"

/-- The conventional-status-code switch (lines 711-733). -/
def methodConventionWarns (c : JSObject) (codes : List String) : List String :=
  match jsLookup c "method" with
  | some (.str s) =>
    if s == "get" then (if codes.contains "200" then [] else [get200WarnMsg])
    else if s == "post" then
      (if codes.contains "201" || codes.contains "200" then [] else [post201WarnMsg])
    else if s == "put" || s == "patch" then
      (if codes.contains "200" then [] else [putPatch200WarnMsg s])
    else if s == "delete" then
      (if codes.contains "204" || codes.contains "200" then [] else [delete204WarnMsg])
    else []
  | _ => []

/-- `responseStatusCodes.some(code => parseInt(code) >= 400)` (line 736);
`parseInt` without a radix argument. -/
def hasErrorCode (codes : List String) : Bool :=
  codes.any fun k =>
    match jsParseIntAuto k with
    | some n => 400 ≤ n
    | none => false

/-- The rule body of `validateResponseType` (pure: nothing here can throw);
the single return point builds `success` from the collected errors, the
`Response`-type-export warning is appended last (lines 742-751). -/
def validateResponseTypeCore (nm rp : String) (E : ExtractResult) (c : JSObject) : VResult :=
  let baseDetails : List (String × Option JSValue) :=
    [("contractName", some (.str nm)), ("path", some (.str rp)),
     ("method", jsLookup c "method")]
  let respTypeWarn : List String := if E.hasResponseType then [] else [respTypeWarnMsg]
  let branch : List String × List String × List (String × Option JSValue) :=
    match jsLookup c "response" with
    | some v =>
      if jsTruthyV v && jsTypeofObject v then
        let codes := jsObjectKeys v
        (if codes.isEmpty then [respAtLeastOneMsg] else [],
         (if E.hasResponseSchema then [] else [respSchemaWarnMsg]) ++
           methodConventionWarns c codes ++
           (if hasErrorCode codes then [] else [noErrCodesWarnMsg]),
         [("responseStatusCodes", some (.arr (codes.map .str)))])
      else ([respRequiredMsg], [], [])
    | none => ([respRequiredMsg], [], [])
  ⟨branch.1.isEmpty, branch.1, branch.2.1 ++ respTypeWarn, baseDetails ++ branch.2.2⟩

/-- `validateResponseType(contractPath)` with its catch (lines 760-765). -/
def validateResponseTypeRun (A : Adapter) (p : String) : VResult :=
  match readContractM A p with
  | .error m => ⟨false, ["Failed to validate response type: " ++ m], [], []⟩
  | .ok (rp, E) =>
    match E.contract, E.hasSource with
    | some c, true => validateResponseTypeCore (contractNameOf p) rp E c
    | _, _ => contractNotFound2Result (contractNameOf p) rp

/-! ## validateRequestAgainstContract (source lines 791-889) -/

def paramsObjMsg : String := "Path parameters must be an object"

def queryObjMsg : String := "Query parameters must be an object"

def getBodyWarnMsg : String := "GET requests should not have a body"

/-- `<METHOD> request is missing a body` -/
def missingBodyWarnMsg (m : String) : String := jsToUpper m ++ " request is missing a body"

/-- `const { params, query, body } = request`: throws on `null`. -/
def jsDestructure3 (v : JSValue) :
    Except String (Option JSValue × Option JSValue × Option JSValue) :=
  match v with
  | .null => .error destructureNullMsg
  | w => .ok (jsGetProp w "params", jsGetProp w "query", jsGetProp w "body")

/-- Container-shape check for `params`/`query` (lines 822-842): a declared
schema together with a truthy supplied value requires the value to be an
object; otherwise it records the provided keys. -/
def containerCheck (declared v : Option JSValue) (errMsg validKey providedKey : String) :
    List String × List (String × Option JSValue) :=
  if jsTruthy declared && jsTruthy v then
    match v with
    | some p =>
      if !(jsTypeofObject p) then ([errMsg], [])
      else ([], [(validKey, some (.bool true)),
                 (providedKey, some (.arr ((jsObjectKeys p).map .str)))])
    | none => ([], [])
  else ([], [])

/-- Body advisories (lines 845-855): the `if (contract.body && body)` /
`else if (post/put/patch && !body)` pair. -/
def bodyWarnings (c : JSObject) (body : Option JSValue) :
    List String × List (String × Option JSValue) :=
  if jsTruthy (jsLookup c "body") && jsTruthy body then
    (if methodIs c "get" && jsTruthy body then [getBodyWarnMsg] else [],
     [("bodyProvided", some (.bool true))])
  else
    match bodyMethodOf c with
    | some m => if !(jsTruthy body) then ([missingBodyWarnMsg m], []) else ([], [])
    | none => ([], [])

/-- Placeholder presence in `params` (lines 858-874): one error per declared
`:name` whose key is `undefined` in the supplied `params`; `path.match` on a
truthy non-string throws. -/
def pathParamsSectionE (c : JSObject) (params : Option JSValue) :
    Except String (List String) :=
  match jsLookup c "path" with
  | none => .ok []
  | some v =>
    if jsTruthyV v then
      match v with
      | .str s =>
        let ps := extractPathParams s
        if ps.isEmpty then .ok []
        else
          match params with
          | some pv =>
            if jsTruthyV pv then
              .ok (ps.filterMap fun n =>
                if (jsGetProp pv n).isNone then some (missingParamMsg n) else none)
            else .ok [noParamsObjMsg ps]
          | none => .ok [noParamsObjMsg ps]
      | _ => .error matchNotFnMsg
    else .ok []

/-- The rule body of `validateRequestAgainstContract` on an extracted
contract and a caller-supplied request value. -/
def validateRequestAgainstCore (nm rp : String) (c : JSObject) (req : JSValue) :
    Except String VResult :=
  match jsDestructure3 req with
  | .error m => .error m
  | .ok (params, query, body) =>
    let baseDetails : List (String × Option JSValue) :=
      [("contractName", some (.str nm)), ("path", some (.str rp)),
       ("method", jsLookup c "method"), ("apiPath", jsLookup c "path")]
    let part1 := containerCheck (jsLookup c "params") params paramsObjMsg
      "paramsValid" "paramsProvided"
    let part2 := containerCheck (jsLookup c "query") query queryObjMsg
      "queryValid" "queryProvided"
    let part3 := bodyWarnings c body
    match pathParamsSectionE c params with
    | .error m => .error m
    | .ok errs4 =>
      let errors := part1.1 ++ part2.1 ++ errs4
      .ok ⟨errors.isEmpty, errors, part3.1, baseDetails ++ part1.2 ++ part2.2 ++ part3.2⟩

/-- `validateRequestAgainstContract(contractPath, request)` with its catch
(lines 883-888). -/
def validateRequestAgainstRun (A : Adapter) (p : String) (req : JSValue) : VResult :=
  match readContractM A p with
  | .error m => ⟨false, ["Failed to validate request: " ++ m], [], []⟩
  | .ok (rp, E) =>
    match E.contract with
    | none => contractNotFoundResult (contractNameOf p) rp
    | some c =>
      match validateRequestAgainstCore (contractNameOf p) rp c req with
      | .ok r => r
      | .error m => ⟨false, ["Failed to validate request: " ++ m], [], []⟩

/-! ## validateResponseAgainstContract (source lines 894-975) -/

/-- `Contract does not define a response for status code <sc>` -/
def noRespForStatusMsg (sc : Int) : String :=
  "Contract does not define a response for status code " ++ toString sc

/-- `Response body is required for status code <sc>` -/
def respBodyRequiredMsg (sc : Int) : String :=
  "Response body is required for status code " ++ toString sc

def respMustBeObjMsg : String := "Response must be an object or array"

def get200RespWarnMsg : String :=
  "GET 200 responses typically include data in a \"data\", \"items\", or \"results\" property or as an array"

def createdIdWarnMsg : String :=
  "Created resources typically include an \"id\" or \"_id\" property"

/-- `Contract defines responses for status codes: <list>` -/
def suggestionsMsg (codes : List String) : String :=
  "Contract defines responses for status codes: " ++ String.intercalate ", " codes

/-- The rule body of `validateResponseAgainstContract` (pure); the single
return point of lines 962-968 builds `success` from the collected errors. -/
def validateResponseAgainstCore (nm rp : String) (c : JSObject) (resp : JSValue)
    (sc : Int) : VResult :=
  let baseDetails : List (String × Option JSValue) :=
    [("contractName", some (.str nm)), ("path", some (.str rp)),
     ("method", jsLookup c "method"), ("statusCode", some (.num sc))]
  let rv := jsLookup c "response"
  let schemaForStatus : Option JSValue :=
    match rv with
    | some v => if jsTruthyV v then jsGetProp v (toString sc) else none
    | none => none
  let branch : List String × List String × List (String × Option JSValue) :=
    if !(jsTruthy rv) || !(jsTruthy schemaForStatus) then
      -- lines 922-930
      let defined := respStatusesOf c
      ([noRespForStatusMsg sc], [],
       if !defined.isEmpty then
         [("definedStatusCodes", some (.arr (defined.map .str))),
          ("suggestions", some (.str (suggestionsMsg defined)))]
       else [])
    else if !(jsTruthyV resp) then
      -- line 936
      ([respBodyRequiredMsg sc], [], [("responseSchemaExists", some (.bool true))])
    else if !(jsTypeofObject resp) then
      -- line 940
      ([respMustBeObjMsg], [], [("responseSchemaExists", some (.bool true))])
    else
      -- lines 942-958
      let warns1 :=
        if sc == 200 && methodIs c "get" then
          (if !(jsIsArray resp) && !(jsTruthy (jsGetProp resp "data")) &&
              !(jsTruthy (jsGetProp resp "items")) && !(jsTruthy (jsGetProp resp "results"))
           then [get200RespWarnMsg] else [])
        else []
      let warns2 :=
        if sc == 201 && methodIs c "post" then
          (if jsTypeofObject resp && !(jsTruthy (jsGetProp resp "id")) &&
              !(jsTruthy (jsGetProp resp "_id"))
           then [createdIdWarnMsg] else [])
        else []
      ([], warns1 ++ warns2,
       [("responseSchemaExists", some (.bool true)),
        ("responseProvided", some (.bool true))])
  ⟨branch.1.isEmpty, branch.1, branch.2.1, baseDetails ++ branch.2.2⟩

/-- `validateResponseAgainstContract(contractPath, response, statusCode)` with
its catch (lines 969-974). -/
def validateResponseAgainstRun (A : Adapter) (p : String) (resp : JSValue) (sc : Int) :
    VResult :=
  match readContractM A p with
  | .error m => ⟨false, ["Failed to validate response: " ++ m], [], []⟩
  | .ok (rp, E) =>
    match E.contract with
    | none => contractNotFoundResult (contractNameOf p) rp
    | some c => validateResponseAgainstCore (contractNameOf p) rp c resp sc

/-! ## generateMockResponse (source lines 1038-1160) -/

/-- The `MockResponse` record: `{data, type, success}`. -/
structure MockResponse where
  data : JSValue
  type : String
  success : Bool

/-- The synthesizer's sources of nondeterminism, abstracted: the pseudo-random
helpers (`generateRandomId`, `generateRandomHash`, `generateTruncatedKey`,
`Math.floor(Math.random()*1000)`) indexed by call order within the taken
branch, and the two timestamps (`new Date().toISOString()` and the
day-earlier one). -/
structure MockEnv where
  randId : Nat → String
  randHash : Nat → String
  truncKey : Nat → String
  usage : Nat → Int
  nowISO : String
  dayAgoISO : String

/-- A possibly-`NaN` status code rendered into the fallback message. -/
def scToStr : Option Int → String
  | some n => toString n
  | none => "NaN"

/-- The hand-authored list shape for an `api-key`+`get` contract at status 200
(lines 1083-1115). -/
def apiKeyListResult (env : MockEnv) : MockResponse :=
  ⟨.arr
    [.obj [("id", .str ("apikey_" ++ env.randId 0)),
           ("name", .str "Test API Key 1"),
           ("description", .str "Generated test API key"),
           ("uniqueIdentifier", .str (env.randId 1)),
           ("company", .str ("company_" ++ env.randId 2)),
           ("user", .str ("user_" ++ env.randId 3)),
           ("keyHash", .str (env.randHash 0)),
           ("truncatedKey", .str (env.truncKey 0)),
           ("status", .str "active"),
           ("permissions", .arr [.str "read", .str "write"]),
           ("usageCount", .num (env.usage 0)),
           ("createdAt", .str env.nowISO)],
     .obj [("id", .str ("apikey_" ++ env.randId 4)),
           ("name", .str "Test API Key 2"),
           ("uniqueIdentifier", .str (env.randId 5)),
           ("company", .str ("company_" ++ env.randId 6)),
           ("user", .str ("user_" ++ env.randId 7)),
           ("keyHash", .str (env.randHash 1)),
           ("truncatedKey", .str (env.truncKey 1)),
           ("status", .str "active"),
           ("permissions", .arr [.str "read"]),
           ("usageCount", .num (env.usage 1)),
           ("createdAt", .str env.dayAgoISO)]],
   "Array<APIAuthKey>", true⟩

/-- The created-key shape for an `api-key`+`post` contract at status 201/200
(lines 1119-1136). -/
def apiKeyCreateResult (env : MockEnv) : MockResponse :=
  ⟨.obj [("id", .str ("apikey_" ++ env.randId 0)),
         ("name", .str "New API Key"),
         ("uniqueIdentifier", .str (env.randId 1)),
         ("company", .str ("company_" ++ env.randId 2)),
         ("user", .str ("user_" ++ env.randId 3)),
         ("keyHash", .str (env.randHash 0)),
         ("truncatedKey", .str (env.truncKey 0)),
         ("status", .str "active"),
         ("permissions", .arr [.str "read", .str "write"]),
         ("usageCount", .num 0),
         ("createdAt", .str env.nowISO)],
   "APIAuthKey", true⟩

/-- The generic fallback shape `{id, timestamp, success, message}`
(lines 1142-1151). -/
def genericMockResult (env : MockEnv) (name : String) (sc : Option Int) : MockResponse :=
  ⟨.obj [("id", .str (env.randId 0)),
         ("timestamp", .str env.nowISO),
         ("success", .bool true),
         ("message", .str ("Mock response for " ++ name ++ " with status " ++ scToStr sc))],
   "generic", true⟩

/-- Name-keyed shape selection (lines 1078-1151), entered with the possibly
`NaN` status code produced by the fallback. -/
def mockBody (env : MockEnv) (name : String) (sc : Option Int) : MockResponse :=
  if jsIncludes name "api-key" then
    if jsIncludes name "get" then
      (if sc == some 200 then apiKeyListResult env else genericMockResult env name sc)
    else if jsIncludes name "post" then
      (if sc == some 201 || sc == some 200 then apiKeyCreateResult env
       else genericMockResult env name sc)
    else genericMockResult env name sc
  else genericMockResult env name sc

/-- The failed mock (`{data: null, type: "error", success: false}`). -/
def failedMock : MockResponse := ⟨.null, "error", false⟩

/-- `generateMockResponse` given an extracted contract: the undeclared-status
fallback of lines 1053-1070 (`statusCode = parseInt(availableStatusCodes[0], 10)`),
then the shape selection. -/
def respSchemaFor (c : JSObject) (sc : Int) : Option JSValue :=
  match jsLookup c "response" with
  | some v => if jsTruthyV v then jsGetProp v (toString sc) else none
  | none => none

def generateMockCore (env : MockEnv) (name : String) (c : JSObject) (sc : Int) :
    MockResponse :=
  if !(jsTruthy (jsLookup c "response")) || !(jsTruthy (respSchemaFor c sc)) then
    match respStatusesOf c with
    | [] => failedMock
    | k :: _ => mockBody env name (jsParseInt10 k)
  else mockBody env name (some sc)

/-- `generateMockResponse(contractPath, statusCode)` with its guards and catch
(lines 1045-1051, 1152-1159). -/
def generateMockResponseRun (A : Adapter) (env : MockEnv) (p : String) (sc : Int) :
    MockResponse :=
  match readContractM A p with
  | .error _ => failedMock
  | .ok (_, E) =>
    match E.contract, E.hasSource with
    | some c, true => generateMockCore env (contractNameOf p) c sc
    | _, _ => failedMock

/-! ## String infrastructure for message disambiguation -/

theorem strDataAppend (s t : String) : (s ++ t).data = s.data ++ t.data := by
  cases s; cases t; rfl

theorem strAppendAssoc (s t u : String) : s ++ t ++ u = s ++ (t ++ u) := by
  apply String.ext
  simp only [strDataAppend, List.append_assoc]

theorem strAppend_left_cancel {s a b : String} (h : s ++ a = s ++ b) : a = b := by
  apply String.ext
  have h2 : s.data ++ a.data = s.data ++ b.data := by
    rw [← strDataAppend, ← strDataAppend, h]
  exact List.append_cancel_left h2

theorem strAppend_right_cancel {a b t : String} (h : a ++ t = b ++ t) : a = b := by
  apply String.ext
  have h2 : a.data ++ t.data = b.data ++ t.data := by
    rw [← strDataAppend, ← strDataAppend, h]
  exact List.append_cancel_right h2

/-- The character of a string at an index (used to tell the fixed prefixes of
the diagnostic messages apart). -/
def strAt (s : String) (n : Nat) : Option Char := s.data[n]?

theorem ne_of_strAt {s t : String} (n : Nat) (h : strAt s n ≠ strAt t n) : s ≠ t :=
  fun e => h (by rw [e])

theorem strAt_append_left {s t : String} {n : Nat} (h : n < s.data.length) :
    strAt (s ++ t) n = strAt s n := by
  unfold strAt
  rw [strDataAppend]
  exact List.getElem?_append_left h

theorem strAt_prefix {p rest : String} {n : Nat} {c : Char}
    (h1 : n < p.data.length) (h2 : strAt p n = some c) : strAt (p ++ rest) n = some c :=
  (strAt_append_left h1).trans h2

theorem strAt_missingFieldMsg (f : String) : strAt (missingFieldMsg f) 0 = some 'M' := by
  unfold missingFieldMsg
  exact strAt_prefix (by decide) (by decide)

theorem strAt_missingParamMsg (n : String) : strAt (missingParamMsg n) 0 = some 'M' := by
  unfold missingParamMsg
  exact strAt_prefix (by decide) (by decide)

theorem strAt0_invalidMethodMsg (v : String) : strAt (invalidMethodMsg v) 0 = some 'I' := by
  unfold invalidMethodMsg
  rw [strAppendAssoc]
  exact strAt_prefix (by decide) (by decide)

theorem strAt8_invalidMethodMsg (v : String) : strAt (invalidMethodMsg v) 8 = some 'm' := by
  unfold invalidMethodMsg
  rw [strAppendAssoc]
  exact strAt_prefix (by decide) (by decide)

theorem strAt0_invalidPathMsg (p : String) : strAt (invalidPathMsg p) 0 = some 'I' := by
  unfold invalidPathMsg
  rw [strAppendAssoc]
  exact strAt_prefix (by decide) (by decide)

theorem strAt8_invalidPathMsg (p : String) : strAt (invalidPathMsg p) 8 = some 'p' := by
  unfold invalidPathMsg
  rw [strAppendAssoc]
  exact strAt_prefix (by decide) (by decide)

theorem strAt0_invalidStatusMsg (k : String) : strAt (invalidStatusMsg k) 0 = some 'I' := by
  unfold invalidStatusMsg
  rw [strAppendAssoc]
  exact strAt_prefix (by decide) (by decide)

theorem strAt8_invalidStatusMsg (k : String) : strAt (invalidStatusMsg k) 8 = some 's' := by
  unfold invalidStatusMsg
  rw [strAppendAssoc]
  exact strAt_prefix (by decide) (by decide)

theorem strAt_claimMissingMsg (i : Nat) (f : String) :
    strAt (claimMissingMsg i f) 0 = some 'C' := by
  unfold claimMissingMsg
  rw [strAppendAssoc, strAppendAssoc]
  exact strAt_prefix (by decide) (by decide)

theorem strAt_paramsSchemaWarnMsg (ps : List String) :
    strAt (paramsSchemaWarnMsg ps) 0 = some 'P' := by
  unfold paramsSchemaWarnMsg
  rw [strAppendAssoc]
  exact strAt_prefix (by decide) (by decide)

theorem strAt_noParamsObjMsg (ps : List String) :
    strAt (noParamsObjMsg ps) 0 = some 'P' := by
  unfold noParamsObjMsg
  rw [strAppendAssoc]
  exact strAt_prefix (by decide) (by decide)

theorem missingFieldMsg_inj {a b : String} (h : missingFieldMsg a = missingFieldMsg b) :
    a = b := strAppend_left_cancel h

theorem missingParamMsg_inj {a b : String} (h : missingParamMsg a = missingParamMsg b) :
    a = b := strAppend_left_cancel h

theorem invalidStatusMsg_inj {a b : String} (h : invalidStatusMsg a = invalidStatusMsg b) :
    a = b := strAppend_left_cancel (strAppend_right_cancel h)

/-! ## Counting infrastructure -/

theorem count_eq_zero_of_all_ne {l : List String} {a : String} (h : ∀ e ∈ l, e ≠ a) :
    l.count a = 0 :=
  List.count_eq_zero.mpr fun hm => h a hm rfl

theorem count_filterMap_msgs (msg : String → String)
    (hinj : ∀ a b, msg a = msg b → a = b) (p : String → Bool) (k : String) :
    ∀ l : List String,
      (l.filterMap fun x => if p x then none else some (msg x)).count (msg k) =
        if p k then 0 else l.count k := by
  intro l
  induction l with
  | nil => simp
  | cons x xs ih =>
    simp only [List.filterMap_cons]
    by_cases hx : p x
    · rw [if_pos hx, ih]
      by_cases hk : p k
      · simp [hk]
      · have hne : k ≠ x := fun e => hk (e ▸ hx)
        rw [if_neg hk, if_neg hk, List.count_cons_of_ne hne]
    · rw [if_neg hx]
      by_cases he : x = k
      · subst he
        rw [List.count_cons_self, ih, if_neg hx, List.count_cons_self, if_neg hx]
      · have hne : msg k ≠ msg x := fun e => he (hinj _ _ e.symm)
        rw [List.count_cons_of_ne hne, ih]
        by_cases hk : p k
        · simp [hk]
        · have hne2 : k ≠ x := fun e => he e.symm
          rw [if_neg hk, if_neg hk, List.count_cons_of_ne hne2]

/-! ## Safety predicates and segment shapes for validateContract

A "contract description" in the sense of the specification's data model keeps
`path` a string and the `auth.authorization.claims` entries records; under
those typing assumptions none of the rule engine's property accesses throws. -/

/-- The `path` field, when truthy, is a string (the data model's typing;
a truthy non-string `path` would make `path.startsWith`/`path.match` throw). -/
def pathFieldSafe (c : JSObject) : Prop :=
  ∀ v, jsLookup c "path" = some v → jsTruthyV v = true → ∃ s, v = JSValue.str s

/-- The `auth.authorization.claims` value as reached by the guard chain of
lines 480-497. -/
def authClaimsOf (c : JSObject) : Option JSValue :=
  match jsLookup c "auth" with
  | none => none
  | some a =>
    if jsTruthyV a then
      match jsGetProp a "authorization" with
      | none => none
      | some az => if jsTruthyV az then jsGetProp az "claims" else none
    else none

/-- No `null` entry in a declared claims sequence (the data model types each
entry as a `{userClaimPath, routeParamName}` record; a `null` entry would make
`claim.userClaimPath` throw). -/
def claimsFieldSafe (c : JSObject) : Prop :=
  ∀ l, authClaimsOf c = some (JSValue.arr l) → JSValue.null ∉ l

/-- Every auth-section diagnostic is one of these four messages. -/
def authShape (e : String) : Prop :=
  e = rolesMsg ∨ e = scopesMsg ∨ e = claimsNotArrayMsg ∨ ∃ i f, e = claimMissingMsg i f

theorem pathErrorsE_ok {c : JSObject} (hp : pathFieldSafe c) :
    ∃ l, pathErrorsE c = .ok l ∧ (l = [] ∨ ∃ s, l = [invalidPathMsg s]) := by
  cases hv : jsLookup c "path" with
  | none => exact ⟨[], by simp [pathErrorsE, hv], .inl rfl⟩
  | some v =>
    cases ht : jsTruthyV v with
    | false => exact ⟨[], by simp [pathErrorsE, hv, ht], .inl rfl⟩
    | true =>
      obtain ⟨s, rfl⟩ := hp v hv ht
      by_cases hs : startsWithSlash s
      · exact ⟨[], by simp [pathErrorsE, hv, ht, hs], .inl rfl⟩
      · exact ⟨[invalidPathMsg s], by simp [pathErrorsE, hv, ht, hs], .inr ⟨s, rfl⟩⟩

theorem pathParamWarningsE_ok {c : JSObject} (hp : pathFieldSafe c) :
    ∃ w, pathParamWarningsE c = .ok w := by
  cases hw : pathParamWarningsE c with
  | ok w => exact ⟨w, rfl⟩
  | error m =>
    exfalso
    cases hv : jsLookup c "path" with
    | none => simp [pathParamWarningsE, hv] at hw
    | some v =>
      cases ht : jsTruthyV v with
      | false => simp [pathParamWarningsE, hv, ht] at hw
      | true =>
        obtain ⟨s, rfl⟩ := hp v hv ht
        simp [pathParamWarningsE, hv, ht] at hw

theorem methodErrors_shape {c : JSObject} :
    ∀ e ∈ methodErrors c, ∃ v, e = invalidMethodMsg v := by
  intro e he
  unfold methodErrors at he
  cases hm : jsLookup c "method" with
  | none => rw [hm] at he; simp at he
  | some v =>
    simp only [hm] at he
    by_cases ht : jsTruthyV v && !(isHttpMethod v)
    · rw [if_pos ht] at he
      exact ⟨jsToString v, List.mem_singleton.mp he⟩
    · rw [if_neg ht] at he
      simp at he

theorem responseErrors_shape {c : JSObject} :
    ∀ e ∈ responseErrors c, e = emptyResponseMsg ∨ ∃ k, e = invalidStatusMsg k := by
  intro e he
  unfold responseErrors at he
  cases hr : jsLookup c "response" with
  | none => rw [hr] at he; simp at he
  | some v =>
    simp only [hr] at he
    by_cases ht : jsTruthyV v && jsTypeofObject v
    · rw [if_pos ht] at he
      by_cases hk : (jsObjectKeys v).isEmpty
      · rw [if_pos hk] at he
        exact .inl (List.mem_singleton.mp he)
      · rw [if_neg hk] at he
        obtain ⟨k, _, hk2⟩ := List.mem_filterMap.mp he
        right
        by_cases hv : validStatusKey k
        · simp [hv] at hk2
        · simp only [if_neg hv, Option.some.injEq] at hk2
          exact ⟨k, hk2.symm⟩
    · rw [if_neg ht] at he
      simp at he

theorem claimFieldErrsE_ok {x : JSValue} (hx : x ≠ JSValue.null) (i : Nat) :
    claimFieldErrsE i x =
      .ok ((if jsTruthy (jsGetProp x "userClaimPath") then []
            else [claimMissingMsg i "userClaimPath"]) ++
           (if jsTruthy (jsGetProp x "routeParamName") then []
            else [claimMissingMsg i "routeParamName"])) := by
  cases x <;> first | exact absurd rfl hx | rfl

theorem claimsListErrsE_ok (l : List JSValue) :
    ∀ i, JSValue.null ∉ l →
      ∃ es, claimsListErrsE i l = .ok es ∧ ∀ e ∈ es, ∃ j f, e = claimMissingMsg j f := by
  induction l with
  | nil => exact fun i _ => ⟨[], rfl, by simp⟩
  | cons x xs ih =>
    intro i h
    have hx : x ≠ JSValue.null := fun e => h (by simp [e])
    have h' : JSValue.null ∉ xs := fun m => h (List.mem_cons_of_mem _ m)
    obtain ⟨es, hes, hsh⟩ := ih (i + 1) h'
    refine ⟨((if jsTruthy (jsGetProp x "userClaimPath") then []
              else [claimMissingMsg i "userClaimPath"]) ++
             (if jsTruthy (jsGetProp x "routeParamName") then []
              else [claimMissingMsg i "routeParamName"])) ++ es, ?_, ?_⟩
    · simp only [claimsListErrsE, claimFieldErrsE_ok hx i, hes]
    · intro e he
      rcases List.mem_append.mp he with h1 | h2
      · rcases List.mem_append.mp h1 with ha | hb
        · refine ⟨i, "userClaimPath", ?_⟩
          split at ha
          · simp at ha
          · simpa using ha
        · refine ⟨i, "routeParamName", ?_⟩
          split at hb
          · simp at hb
          · simpa using hb
      · exact hsh e h2

theorem rolesScopesErr_shape (az : JSValue) (f m : String) :
    ∀ e ∈ rolesScopesErr az f m, e = m := by
  intro e he
  unfold rolesScopesErr at he
  cases h : jsGetProp az f with
  | none => rw [h] at he; simp at he
  | some r =>
    simp only [h] at he
    split at he
    · exact List.mem_singleton.mp he
    · simp at he

theorem claimsErrsE_ok {az : JSValue}
    (h : ∀ l, jsGetProp az "claims" = some (JSValue.arr l) → JSValue.null ∉ l) :
    ∃ ce, claimsErrsE az = .ok ce ∧
      ∀ e ∈ ce, e = claimsNotArrayMsg ∨ ∃ j f, e = claimMissingMsg j f := by
  cases hcl : jsGetProp az "claims" with
  | none => exact ⟨[], by simp [claimsErrsE, hcl], by simp⟩
  | some cl =>
    cases htc : jsTruthyV cl with
    | false => exact ⟨[], by simp [claimsErrsE, hcl, htc], by simp⟩
    | true =>
      cases cl with
      | arr l =>
        obtain ⟨es, hes, hsh⟩ := claimsListErrsE_ok l 0 (h l hcl)
        exact ⟨es, by simp [claimsErrsE, hcl, htc, hes], fun e he => .inr (hsh e he)⟩
      | null => simp [jsTruthyV] at htc
      | bool b =>
        exact ⟨[claimsNotArrayMsg], by simp [claimsErrsE, hcl, htc],
               fun e he => .inl (List.mem_singleton.mp he)⟩
      | num n =>
        exact ⟨[claimsNotArrayMsg], by simp [claimsErrsE, hcl, htc],
               fun e he => .inl (List.mem_singleton.mp he)⟩
      | str s =>
        exact ⟨[claimsNotArrayMsg], by simp [claimsErrsE, hcl, htc],
               fun e he => .inl (List.mem_singleton.mp he)⟩
      | obj fs =>
        exact ⟨[claimsNotArrayMsg], by simp [claimsErrsE, hcl, htc],
               fun e he => .inl (List.mem_singleton.mp he)⟩

theorem authErrorsE_ok {c : JSObject} (hc : claimsFieldSafe c) :
    ∃ l, authErrorsE c = .ok l ∧ ∀ e ∈ l, authShape e := by
  cases ha : jsLookup c "auth" with
  | none => exact ⟨[], by simp [authErrorsE, ha], by simp⟩
  | some a =>
    cases hta : jsTruthyV a with
    | false => exact ⟨[], by simp [authErrorsE, ha, hta], by simp⟩
    | true =>
      cases haz : jsGetProp a "authorization" with
      | none => exact ⟨[], by simp [authErrorsE, ha, hta, haz], by simp⟩
      | some az =>
        cases htz : jsTruthyV az with
        | false => exact ⟨[], by simp [authErrorsE, ha, hta, haz, htz], by simp⟩
        | true =>
          have hcl : ∀ l, jsGetProp az "claims" = some (JSValue.arr l) →
              JSValue.null ∉ l := by
            intro l hl
            exact hc l (by simp [authClaimsOf, ha, hta, haz, htz, hl])
          obtain ⟨ce, hce, hcesh⟩ := claimsErrsE_ok hcl
          refine ⟨rolesScopesErr az "roles" rolesMsg ++
                  rolesScopesErr az "scopes" scopesMsg ++ ce,
                  by simp [authErrorsE, ha, hta, haz, htz, hce], ?_⟩
          intro e he
          rcases List.mem_append.mp he with h1 | h2
          · rcases List.mem_append.mp h1 with hr | hs
            · exact .inl (rolesScopesErr_shape az _ _ e hr)
            · exact .inr (.inl (rolesScopesErr_shape az _ _ e hs))
          · rcases hcesh e h2 with h3 | h4
            · exact .inr (.inr (.inl h3))
            · exact .inr (.inr (.inr h4))

/-- Composing the segments: the rule engine's result once each fallible
segment is known to succeed. -/
theorem validateContractCore_eq {c : JSObject} {pe ae w : List String}
    (h1 : pathErrorsE c = .ok pe) (h2 : authErrorsE c = .ok ae)
    (h3 : pathParamWarningsE c = .ok w) (nm rp : String) :
    validateContractCore nm rp c =
      .ok ⟨(requiredFieldErrors c ++ methodErrors c ++ pe ++ responseErrors c ++ ae).isEmpty,
           requiredFieldErrors c ++ methodErrors c ++ pe ++ responseErrors c ++ ae,
           w, contractDetails nm rp c⟩ := by
  simp [validateContractCore, h1, h2, h3]

/-- Run-level reduction for `validateContract`: with a readable file and a
found `Contract` export, the result is the rule engine's. -/
theorem validateContractRun_eq_core {A : Adapter} {p content : String} {c : JSObject} {r : VResult}
    (hread : A.fs (resolveContractPath A.contractsBasePath p) = .ok content)
    (hex : (A.extract (resolveContractPath A.contractsBasePath p) content).contract = some c)
    (hcore : validateContractCore (contractNameOf p)
      (resolveContractPath A.contractsBasePath p) c = .ok r) :
    validateContractRun A p = r := by
  simp [validateContractRun, readContractM, hread, hex, hcore]

/-- One `Missing required field` message per falsy required field. -/
theorem count_requiredFieldErrors (c : JSObject) (f : String)
    (hf : f ∈ (["path", "method", "response"] : List String)) :
    (requiredFieldErrors c).count (missingFieldMsg f) =
      if jsTruthy (jsLookup c f) then 0 else 1 := by
  unfold requiredFieldErrors
  rw [count_filterMap_msgs missingFieldMsg (fun a b => missingFieldMsg_inj)
    (fun g => jsTruthy (jsLookup c g)) f]
  fin_cases hf <;> simp

/-! ## Disequality of message families -/

theorem ne_of_strAt_eq {s t : String} {n : Nat} {a b : Char}
    (hs : strAt s n = some a) (ht : strAt t n = some b) (hab : a ≠ b) : s ≠ t :=
  ne_of_strAt n (by rw [hs, ht]; exact fun e => hab (Option.some.inj e))

theorem strAt_emptyResponseMsg : strAt emptyResponseMsg 0 = some 'R' := rfl

theorem strAt_rolesMsg : strAt rolesMsg 0 = some 'A' := rfl

theorem strAt_scopesMsg : strAt scopesMsg 0 = some 'A' := rfl

theorem strAt_claimsNotArrayMsg : strAt claimsNotArrayMsg 0 = some 'A' := rfl

/-- No `Missing required field` message arises from the method rule. -/
theorem count_missingField_methodErrors (c : JSObject) (f : String) :
    (methodErrors c).count (missingFieldMsg f) = 0 :=
  count_eq_zero_of_all_ne fun e he => by
    obtain ⟨v, rfl⟩ := methodErrors_shape e he
    exact ne_of_strAt_eq (strAt0_invalidMethodMsg v) (strAt_missingFieldMsg f) (by decide)

/-- No `Missing required field` message arises from the response rule. -/
theorem count_missingField_responseErrors (c : JSObject) (f : String) :
    (responseErrors c).count (missingFieldMsg f) = 0 :=
  count_eq_zero_of_all_ne fun e he => by
    rcases responseErrors_shape e he with rfl | ⟨k, rfl⟩
    · exact ne_of_strAt_eq strAt_emptyResponseMsg (strAt_missingFieldMsg f) (by decide)
    · exact ne_of_strAt_eq (strAt0_invalidStatusMsg k) (strAt_missingFieldMsg f) (by decide)

/-- No `Missing required field` message arises from the path rule. -/
theorem count_missingField_pathList {l : List String}
    (h : ∀ e ∈ l, ∃ s, e = invalidPathMsg s) (f : String) :
    l.count (missingFieldMsg f) = 0 :=
  count_eq_zero_of_all_ne fun e he => by
    obtain ⟨s, rfl⟩ := h e he
    exact ne_of_strAt_eq (strAt0_invalidPathMsg s) (strAt_missingFieldMsg f) (by decide)

/-- No `Missing required field` message arises from the auth rules. -/
theorem count_missingField_authList {l : List String}
    (h : ∀ e ∈ l, authShape e) (f : String) :
    l.count (missingFieldMsg f) = 0 :=
  count_eq_zero_of_all_ne fun e he => by
    rcases h e he with rfl | rfl | rfl | ⟨i, g, rfl⟩
    · exact ne_of_strAt_eq strAt_rolesMsg (strAt_missingFieldMsg f) (by decide)
    · exact ne_of_strAt_eq strAt_scopesMsg (strAt_missingFieldMsg f) (by decide)
    · exact ne_of_strAt_eq strAt_claimsNotArrayMsg (strAt_missingFieldMsg f) (by decide)
    · exact ne_of_strAt_eq (strAt_claimMissingMsg i g) (strAt_missingFieldMsg f) (by decide)

theorem pathShape_forall {l : List String}
    (h : l = [] ∨ ∃ s, l = [invalidPathMsg s]) :
    ∀ e ∈ l, ∃ s, e = invalidPathMsg s := by
  rcases h with rfl | ⟨s, rfl⟩
  · simp
  · intro e he
    exact ⟨s, List.mem_singleton.mp he⟩

/-- C1: For every contract description missing any of the fields `path`,
`method`, or `response` (missing in the sense the source tests it: the field
is falsy), `validateContract` returns `success = false` with exactly one
`Missing required field` error per missing field, and zero missing-field
errors for fields that are present (truthy).  The typing hypotheses
`pathFieldSafe`/`claimsFieldSafe` say the description is well-typed per the
specification's data model (`path` a string when present, claims entries
records), which is what keeps the rule engine from throwing. -/
theorem validateContract_missing_required_fields
    (A : Adapter) (p content : String) (c : JSObject)
    (hread : A.fs (resolveContractPath A.contractsBasePath p) = .ok content)
    (hex : (A.extract (resolveContractPath A.contractsBasePath p) content).contract = some c)
    (hpath : pathFieldSafe c) (hclaims : claimsFieldSafe c)
    (hmiss : jsTruthy (jsLookup c "path") = false ∨ jsTruthy (jsLookup c "method") = false ∨
             jsTruthy (jsLookup c "response") = false) :
    (validateContractRun A p).success = false ∧
    ∀ f ∈ (["path", "method", "response"] : List String),
      (validateContractRun A p).errors.count (missingFieldMsg f) =
        if jsTruthy (jsLookup c f) then 0 else 1 := by
  obtain ⟨pe, hpe, hpesh⟩ := pathErrorsE_ok hpath
  obtain ⟨ae, hae, haesh⟩ := authErrorsE_ok hclaims
  obtain ⟨w, hw⟩ := pathParamWarningsE_ok hpath
  rw [validateContractRun_eq_core hread hex
    (validateContractCore_eq hpe hae hw (contractNameOf p)
      (resolveContractPath A.contractsBasePath p))]
  have hcount : ∀ f ∈ (["path", "method", "response"] : List String),
      (requiredFieldErrors c ++ methodErrors c ++ pe ++ responseErrors c ++ ae).count
          (missingFieldMsg f) =
        if jsTruthy (jsLookup c f) then 0 else 1 := by
    intro f hf
    rw [List.count_append, List.count_append, List.count_append, List.count_append,
      count_requiredFieldErrors c f hf, count_missingField_methodErrors c f,
      count_missingField_pathList (pathShape_forall hpesh) f,
      count_missingField_responseErrors c f, count_missingField_authList haesh f]
    simp
  refine ⟨?_, hcount⟩
  have hex2 : ∃ f0, f0 ∈ (["path", "method", "response"] : List String) ∧
      jsTruthy (jsLookup c f0) = false := by
    rcases hmiss with h | h | h
    · exact ⟨"path", by simp, h⟩
    · exact ⟨"method", by simp, h⟩
    · exact ⟨"response", by simp, h⟩
  obtain ⟨f0, hf0m, hf0⟩ := hex2
  have h1 := hcount f0 hf0m
  rw [hf0] at h1
  simp only [if_neg (by simp : ¬(false = true))] at h1
  have hmem := List.count_pos_iff.mp (by rw [h1]; exact Nat.one_pos)
  show (requiredFieldErrors c ++ methodErrors c ++ pe ++ responseErrors c ++ ae).isEmpty = false
  exact List.isEmpty_eq_false.mpr (List.ne_nil_of_mem hmem)

/-- A concrete contract missing `path` and `response`. -/
def exC1Contract : JSObject := [("method", JSValue.str "get")]

def exC1Adapter : Adapter :=
  ⟨"/contracts", fun _ => .ok "export const Contract = ...",
   fun _ _ => ⟨some exC1Contract, true, true, true, true⟩⟩

theorem validateContract_missing_required_fields_witness :
    (validateContractRun exC1Adapter "a.ts").success = false ∧
    ∀ f ∈ (["path", "method", "response"] : List String),
      (validateContractRun exC1Adapter "a.ts").errors.count (missingFieldMsg f) =
        if jsTruthy (jsLookup exC1Contract f) then 0 else 1 :=
  validateContract_missing_required_fields exC1Adapter "a.ts"
    "export const Contract = ..." exC1Contract rfl rfl
    (fun _ h _ => nomatch h) (fun _ h => nomatch h) (.inl rfl)

theorem requiredFieldErrors_shape {c : JSObject} :
    ∀ e ∈ requiredFieldErrors c, ∃ f, e = missingFieldMsg f := by
  intro e he
  unfold requiredFieldErrors at he
  obtain ⟨f, _, hf2⟩ := List.mem_filterMap.mp he
  by_cases ht : jsTruthy (jsLookup c f)
  · simp [ht] at hf2
  · simp only [if_neg ht, Option.some.injEq] at hf2
    exact ⟨f, hf2.symm⟩

theorem strAt8_missingFieldMsg (f : String) : strAt (missingFieldMsg f) 8 = some 'r' := by
  unfold missingFieldMsg
  exact strAt_prefix (by decide) (by decide)

/-- The path rule yields nothing when `path` is falsy. -/
theorem pathErrorsE_falsy {c : JSObject} {v : JSValue}
    (hv : jsLookup c "path" = some v) (ht : jsTruthyV v = false) :
    pathErrorsE c = .ok [] := by
  simp [pathErrorsE, hv, ht]

/-- C9: For a contract whose `path` (or `method`, or `response`) field is
present but falsy — e.g. `path` equal to the empty string — `validateContract`
reports the corresponding `Missing required field` error even though the
field is present, and the leading-`/` rule is never applied (no
`Invalid path` error can appear). -/
theorem validateContract_falsy_present_fields
    (A : Adapter) (p content : String) (c : JSObject)
    (hread : A.fs (resolveContractPath A.contractsBasePath p) = .ok content)
    (hex : (A.extract (resolveContractPath A.contractsBasePath p) content).contract = some c)
    (hpath : pathFieldSafe c) (hclaims : claimsFieldSafe c) :
    (∀ f ∈ (["path", "method", "response"] : List String), ∀ v,
       jsLookup c f = some v → jsTruthyV v = false →
       (validateContractRun A p).errors.count (missingFieldMsg f) = 1) ∧
    (∀ v, jsLookup c "path" = some v → jsTruthyV v = false →
       ∀ s, invalidPathMsg s ∉ (validateContractRun A p).errors) := by
  obtain ⟨pe, hpe, hpesh⟩ := pathErrorsE_ok hpath
  obtain ⟨ae, hae, haesh⟩ := authErrorsE_ok hclaims
  obtain ⟨w, hw⟩ := pathParamWarningsE_ok hpath
  rw [validateContractRun_eq_core hread hex
    (validateContractCore_eq hpe hae hw (contractNameOf p)
      (resolveContractPath A.contractsBasePath p))]
  constructor
  · intro f hf v hv ht
    have htr : jsTruthy (jsLookup c f) = false := by rw [hv]; exact ht
    rw [List.count_append, List.count_append, List.count_append, List.count_append,
      count_requiredFieldErrors c f hf, count_missingField_methodErrors c f,
      count_missingField_pathList (pathShape_forall hpesh) f,
      count_missingField_responseErrors c f, count_missingField_authList haesh f, htr]
    simp
  · intro v hv ht s hmem
    have hpe0 : pathErrorsE c = .ok ([] : List String) := pathErrorsE_falsy hv ht
    rw [hpe, Except.ok.injEq] at hpe0
    subst hpe0
    rcases List.mem_append.mp hmem with h4 | h5
    · rcases List.mem_append.mp h4 with h3 | h3'
      · rcases List.mem_append.mp h3 with h2 | h2'
        · rcases List.mem_append.mp h2 with h1 | h1'
          · obtain ⟨f, hfe⟩ := requiredFieldErrors_shape (invalidPathMsg s) h1
            exact ne_of_strAt_eq (strAt_missingFieldMsg f) (strAt0_invalidPathMsg s)
              (by decide) hfe.symm
          · obtain ⟨mv, hfe⟩ := methodErrors_shape (invalidPathMsg s) h1'
            exact ne_of_strAt_eq (strAt8_invalidMethodMsg mv) (strAt8_invalidPathMsg s)
              (by decide) hfe.symm
        · simp at h2'
      · rcases responseErrors_shape (invalidPathMsg s) h3' with hfe | ⟨k, hfe⟩
        · exact ne_of_strAt_eq strAt_emptyResponseMsg (strAt0_invalidPathMsg s)
            (by decide) hfe.symm
        · exact ne_of_strAt_eq (strAt8_invalidStatusMsg k) (strAt8_invalidPathMsg s)
            (by decide) hfe.symm
    · rcases haesh (invalidPathMsg s) h5 with hfe | hfe | hfe | ⟨i, g, hfe⟩
      · exact ne_of_strAt_eq strAt_rolesMsg (strAt0_invalidPathMsg s) (by decide) hfe.symm
      · exact ne_of_strAt_eq strAt_scopesMsg (strAt0_invalidPathMsg s) (by decide) hfe.symm
      · exact ne_of_strAt_eq strAt_claimsNotArrayMsg (strAt0_invalidPathMsg s)
          (by decide) hfe.symm
      · exact ne_of_strAt_eq (strAt_claimMissingMsg i g) (strAt0_invalidPathMsg s)
          (by decide) hfe.symm

/-- A contract with `path` present but equal to the empty string. -/
def exC9Contract : JSObject :=
  [("path", JSValue.str ""), ("method", JSValue.str "get"),
   ("response", JSValue.obj [("200", JSValue.bool true)])]

def exC9Adapter : Adapter :=
  ⟨"/contracts", fun _ => .ok "text",
   fun _ _ => ⟨some exC9Contract, true, true, true, true⟩⟩

theorem validateContract_falsy_present_fields_witness :
    (∀ f ∈ (["path", "method", "response"] : List String), ∀ v,
       jsLookup exC9Contract f = some v → jsTruthyV v = false →
       (validateContractRun exC9Adapter "b.ts").errors.count (missingFieldMsg f) = 1) ∧
    (∀ v, jsLookup exC9Contract "path" = some v → jsTruthyV v = false →
       ∀ s, invalidPathMsg s ∉ (validateContractRun exC9Adapter "b.ts").errors) :=
  validateContract_falsy_present_fields exC9Adapter "b.ts" "text" exC9Contract rfl rfl
    (fun _ h _ => ⟨"", (Option.some.inj h).symm⟩) (fun _ h => nomatch h)

/-- No response-rule message can arise from the other rule segments. -/
theorem respMsg_notin_other {c : JSObject} {pe ae : List String}
    (hpeSh : ∀ e ∈ pe, ∃ s, e = invalidPathMsg s)
    (haesh : ∀ e ∈ ae, authShape e) :
    ∀ e, (e ∈ requiredFieldErrors c ∨ e ∈ methodErrors c ∨ e ∈ pe ∨ e ∈ ae) →
      e ≠ emptyResponseMsg ∧ ∀ k, e ≠ invalidStatusMsg k := by
  intro e he
  rcases he with h | h | h | h
  · obtain ⟨f, rfl⟩ := requiredFieldErrors_shape e h
    exact ⟨ne_of_strAt_eq (strAt_missingFieldMsg f) strAt_emptyResponseMsg (by decide),
           fun k => ne_of_strAt_eq (strAt_missingFieldMsg f) (strAt0_invalidStatusMsg k)
             (by decide)⟩
  · obtain ⟨v, rfl⟩ := methodErrors_shape e h
    exact ⟨ne_of_strAt_eq (strAt0_invalidMethodMsg v) strAt_emptyResponseMsg (by decide),
           fun k => ne_of_strAt_eq (strAt8_invalidMethodMsg v) (strAt8_invalidStatusMsg k)
             (by decide)⟩
  · obtain ⟨s, rfl⟩ := hpeSh e h
    exact ⟨ne_of_strAt_eq (strAt0_invalidPathMsg s) strAt_emptyResponseMsg (by decide),
           fun k => ne_of_strAt_eq (strAt8_invalidPathMsg s) (strAt8_invalidStatusMsg k)
             (by decide)⟩
  · rcases haesh e h with rfl | rfl | rfl | ⟨i, g, rfl⟩
    · exact ⟨ne_of_strAt_eq strAt_rolesMsg strAt_emptyResponseMsg (by decide),
             fun k => ne_of_strAt_eq strAt_rolesMsg (strAt0_invalidStatusMsg k) (by decide)⟩
    · exact ⟨ne_of_strAt_eq strAt_scopesMsg strAt_emptyResponseMsg (by decide),
             fun k => ne_of_strAt_eq strAt_scopesMsg (strAt0_invalidStatusMsg k) (by decide)⟩
    · exact ⟨ne_of_strAt_eq strAt_claimsNotArrayMsg strAt_emptyResponseMsg (by decide),
             fun k => ne_of_strAt_eq strAt_claimsNotArrayMsg (strAt0_invalidStatusMsg k)
               (by decide)⟩
    · exact ⟨ne_of_strAt_eq (strAt_claimMissingMsg i g) strAt_emptyResponseMsg (by decide),
             fun k => ne_of_strAt_eq (strAt_claimMissingMsg i g) (strAt0_invalidStatusMsg k)
               (by decide)⟩

/-- The response rule on a present object field. -/
theorem responseErrors_obj {c : JSObject} {fs : List (String × JSValue)}
    (hresp : jsLookup c "response" = some (.obj fs)) :
    responseErrors c =
      if fs.isEmpty then [emptyResponseMsg]
      else (fs.map Prod.fst).filterMap fun k =>
        if validStatusKey k then none else some (invalidStatusMsg k) := by
  cases fs with
  | nil => simp [responseErrors, hresp, jsTruthyV, jsTypeofObject, jsObjectKeys]
  | cons hd tl => simp [responseErrors, hresp, jsTruthyV, jsTypeofObject, jsObjectKeys]

/-- C2: For a contract whose `response` field is a present object, an empty
object yields the single `must have at least one status code` error (and no
per-key error), while a non-empty object yields exactly one error per key
that does not parse (radix 10) to an integer in [100, 599], and no
response-related error when every key is valid. -/
theorem validateContract_response_status_keys
    (A : Adapter) (p content : String) (c : JSObject)
    (hread : A.fs (resolveContractPath A.contractsBasePath p) = .ok content)
    (hex : (A.extract (resolveContractPath A.contractsBasePath p) content).contract = some c)
    (hpath : pathFieldSafe c) (hclaims : claimsFieldSafe c)
    (fs : List (String × JSValue))
    (hresp : jsLookup c "response" = some (.obj fs))
    (hnd : (fs.map Prod.fst).Nodup) :
    (fs = [] →
      (validateContractRun A p).errors.count emptyResponseMsg = 1 ∧
      ∀ k, (validateContractRun A p).errors.count (invalidStatusMsg k) = 0) ∧
    (fs ≠ [] →
      (validateContractRun A p).errors.count emptyResponseMsg = 0 ∧
      ∀ k, (validateContractRun A p).errors.count (invalidStatusMsg k) =
        if k ∈ fs.map Prod.fst ∧ ¬(validStatusKey k = true) then 1 else 0) := by
  obtain ⟨pe, hpe, hpesh⟩ := pathErrorsE_ok hpath
  obtain ⟨ae, hae, haesh⟩ := authErrorsE_ok hclaims
  obtain ⟨w, hw⟩ := pathParamWarningsE_ok hpath
  rw [validateContractRun_eq_core hread hex
    (validateContractCore_eq hpe hae hw (contractNameOf p)
      (resolveContractPath A.contractsBasePath p))]
  have hother := respMsg_notin_other (c := c) (pathShape_forall hpesh) haesh
  have hz1 : ∀ k, (requiredFieldErrors c).count (invalidStatusMsg k) = 0 :=
    fun k => count_eq_zero_of_all_ne fun e he => (hother e (.inl he)).2 k
  have hz2 : ∀ k, (methodErrors c).count (invalidStatusMsg k) = 0 :=
    fun k => count_eq_zero_of_all_ne fun e he => (hother e (.inr (.inl he))).2 k
  have hz3 : ∀ k, pe.count (invalidStatusMsg k) = 0 :=
    fun k => count_eq_zero_of_all_ne fun e he => (hother e (.inr (.inr (.inl he)))).2 k
  have hz4 : ∀ k, ae.count (invalidStatusMsg k) = 0 :=
    fun k => count_eq_zero_of_all_ne fun e he => (hother e (.inr (.inr (.inr he)))).2 k
  have he1 : (requiredFieldErrors c).count emptyResponseMsg = 0 :=
    count_eq_zero_of_all_ne fun e he => (hother e (.inl he)).1
  have he2 : (methodErrors c).count emptyResponseMsg = 0 :=
    count_eq_zero_of_all_ne fun e he => (hother e (.inr (.inl he))).1
  have he3 : pe.count emptyResponseMsg = 0 :=
    count_eq_zero_of_all_ne fun e he => (hother e (.inr (.inr (.inl he)))).1
  have he4 : ae.count emptyResponseMsg = 0 :=
    count_eq_zero_of_all_ne fun e he => (hother e (.inr (.inr (.inr he)))).1
  constructor
  · intro hfs
    subst hfs
    constructor
    · rw [List.count_append, List.count_append, List.count_append, List.count_append,
        he1, he2, he3, he4, responseErrors_obj hresp]
      simp
    · intro k
      rw [List.count_append, List.count_append, List.count_append, List.count_append,
        hz1 k, hz2 k, hz3 k, hz4 k, responseErrors_obj hresp]
      simp only [List.isEmpty_nil, if_pos rfl]
      have : invalidStatusMsg k ≠ emptyResponseMsg :=
        ne_of_strAt_eq (strAt0_invalidStatusMsg k) strAt_emptyResponseMsg (by decide)
      simp [List.count_singleton, this]
  · intro hfs
    constructor
    · rw [List.count_append, List.count_append, List.count_append, List.count_append,
        he1, he2, he3, he4, responseErrors_obj hresp,
        if_neg (by simp [List.isEmpty_iff, hfs] : ¬fs.isEmpty = true)]
      have hz : ((fs.map Prod.fst).filterMap fun k =>
          if validStatusKey k then none else some (invalidStatusMsg k)).count
            emptyResponseMsg = 0 := by
        apply count_eq_zero_of_all_ne
        intro e he
        obtain ⟨k, _, hk2⟩ := List.mem_filterMap.mp he
        by_cases hv : validStatusKey k
        · simp [hv] at hk2
        · simp only [if_neg hv, Option.some.injEq] at hk2
          rw [← hk2]
          exact ne_of_strAt_eq (strAt0_invalidStatusMsg k) strAt_emptyResponseMsg (by decide)
      rw [hz]
    · intro k
      rw [List.count_append, List.count_append, List.count_append, List.count_append,
        hz1 k, hz2 k, hz3 k, hz4 k, responseErrors_obj hresp,
        if_neg (by simp [List.isEmpty_iff, hfs] : ¬fs.isEmpty = true),
        count_filterMap_msgs invalidStatusMsg (fun a b => invalidStatusMsg_inj)
          validStatusKey k]
      by_cases hvk : validStatusKey k
      · simp [hvk]
      · by_cases hm : k ∈ fs.map Prod.fst
        · rw [if_neg hvk, List.count_eq_one_of_mem hnd hm, if_pos ⟨hm, hvk⟩]
        · rw [if_neg hvk, List.count_eq_zero_of_not_mem hm,
            if_neg (fun hc => hm hc.1)]

/-- A contract whose response mapping has one valid and one invalid key. -/
def exC2Contract : JSObject :=
  [("path", JSValue.str "/a"), ("method", JSValue.str "get"),
   ("response", JSValue.obj [("200", JSValue.bool true), ("abc", JSValue.bool true)])]

def exC2Adapter : Adapter :=
  ⟨"/contracts", fun _ => .ok "text",
   fun _ _ => ⟨some exC2Contract, true, true, true, true⟩⟩

theorem validateContract_response_status_keys_witness :
    (([("200", JSValue.bool true), ("abc", JSValue.bool true)] :
        List (String × JSValue)) = [] →
      (validateContractRun exC2Adapter "c.ts").errors.count emptyResponseMsg = 1 ∧
      ∀ k, (validateContractRun exC2Adapter "c.ts").errors.count (invalidStatusMsg k) = 0) ∧
    (([("200", JSValue.bool true), ("abc", JSValue.bool true)] :
        List (String × JSValue)) ≠ [] →
      (validateContractRun exC2Adapter "c.ts").errors.count emptyResponseMsg = 0 ∧
      ∀ k, (validateContractRun exC2Adapter "c.ts").errors.count (invalidStatusMsg k) =
        if k ∈ ([("200", JSValue.bool true), ("abc", JSValue.bool true)] :
            List (String × JSValue)).map Prod.fst ∧ ¬(validStatusKey k = true)
        then 1 else 0) :=
  validateContract_response_status_keys exC2Adapter "c.ts" "text" exC2Contract rfl rfl
    (fun _ h _ => ⟨"/a", (Option.some.inj h).symm⟩) (fun _ h => nomatch h)
    [("200", JSValue.bool true), ("abc", JSValue.bool true)] rfl (by decide)

/-! ## C3: success is exactly the absence of errors -/

theorem validateContractCore_success {nm rp : String} {c : JSObject} {r : VResult}
    (h : validateContractCore nm rp c = .ok r) : r.success = r.errors.isEmpty := by
  unfold validateContractCore at h
  cases h1 : pathErrorsE c with
  | error m => simp [h1] at h
  | ok pe =>
    simp only [h1] at h
    cases h2 : authErrorsE c with
    | error m => simp [h2] at h
    | ok ae =>
      simp only [h2] at h
      cases h3 : pathParamWarningsE c with
      | error m => simp [h3] at h
      | ok w =>
        simp only [h3, Except.ok.injEq] at h
        rw [← h]

theorem validateRequestTypeCore_success {nm rp : String} {E : ExtractResult}
    {c : JSObject} {r : VResult}
    (h : validateRequestTypeCore nm rp E c = .ok r) : r.success = r.errors.isEmpty := by
  unfold validateRequestTypeCore at h
  cases h1 : jsPathMatchE (jsLookup c "path") with
  | error m => simp [h1] at h
  | ok ps =>
    simp only [h1, Except.ok.injEq] at h
    rw [← h]

theorem validateRequestAgainstCore_success {nm rp : String} {c : JSObject}
    {req : JSValue} {r : VResult}
    (h : validateRequestAgainstCore nm rp c req = .ok r) :
    r.success = r.errors.isEmpty := by
  unfold validateRequestAgainstCore at h
  cases h1 : jsDestructure3 req with
  | error m => simp [h1] at h
  | ok triple =>
    simp only [h1] at h
    split at h
    · simp at h
    · simp only [Except.ok.injEq] at h
      rw [← h]

theorem validateResponseTypeCore_success (nm rp : String) (E : ExtractResult)
    (c : JSObject) :
    (validateResponseTypeCore nm rp E c).success =
      (validateResponseTypeCore nm rp E c).errors.isEmpty := rfl

theorem validateResponseAgainstCore_success (nm rp : String) (c : JSObject)
    (resp : JSValue) (sc : Int) :
    (validateResponseAgainstCore nm rp c resp sc).success =
      (validateResponseAgainstCore nm rp c resp sc).errors.isEmpty := rfl

/-- C3: For every `ValidationResult` produced by any of the five validators
(over every adapter environment, contract reference, request, response and
status code), `success` is `true` exactly when the collected error list is
empty; warnings never enter the computation of `success` (each result's
`success` is a function of its `errors` alone). -/
theorem validators_success_iff_no_errors :
    (∀ (A : Adapter) (p : String),
       (validateContractRun A p).success = (validateContractRun A p).errors.isEmpty) ∧
    (∀ (A : Adapter) (p : String),
       (validateRequestTypeRun A p).success = (validateRequestTypeRun A p).errors.isEmpty) ∧
    (∀ (A : Adapter) (p : String),
       (validateResponseTypeRun A p).success =
         (validateResponseTypeRun A p).errors.isEmpty) ∧
    (∀ (A : Adapter) (p : String) (req : JSValue),
       (validateRequestAgainstRun A p req).success =
         (validateRequestAgainstRun A p req).errors.isEmpty) ∧
    (∀ (A : Adapter) (p : String) (resp : JSValue) (sc : Int),
       (validateResponseAgainstRun A p resp sc).success =
         (validateResponseAgainstRun A p resp sc).errors.isEmpty) := by
  refine ⟨?_, ?_, ?_, ?_, ?_⟩
  · intro A p
    unfold validateContractRun
    cases readContractM A p with
    | error m => rfl
    | ok pr =>
      obtain ⟨rp, E⟩ := pr
      cases hc : E.contract with
      | none => simp [hc, contractNotFoundResult]
      | some c =>
        cases hcore : validateContractCore (contractNameOf p) rp c with
        | error m => simp [hc, hcore]
        | ok r => simp [hc, hcore, validateContractCore_success hcore]
  · intro A p
    unfold validateRequestTypeRun
    cases readContractM A p with
    | error m => rfl
    | ok pr =>
      obtain ⟨rp, E⟩ := pr
      cases hc : E.contract with
      | none => simp [hc, contractNotFound2Result]
      | some c =>
        cases hs : E.hasSource with
        | false => simp [hc, hs, contractNotFound2Result]
        | true =>
          cases hcore : validateRequestTypeCore (contractNameOf p) rp E c with
          | error m => simp [hc, hs, hcore]
          | ok r => simp [hc, hs, hcore, validateRequestTypeCore_success hcore]
  · intro A p
    unfold validateResponseTypeRun
    cases readContractM A p with
    | error m => rfl
    | ok pr =>
      obtain ⟨rp, E⟩ := pr
      cases hc : E.contract with
      | none => simp [hc, contractNotFound2Result]
      | some c =>
        cases hs : E.hasSource with
        | false => simp [hc, hs, contractNotFound2Result]
        | true =>
          simp [hc, hs, validateResponseTypeCore_success (contractNameOf p) rp E c]
  · intro A p req
    unfold validateRequestAgainstRun
    cases readContractM A p with
    | error m => rfl
    | ok pr =>
      obtain ⟨rp, E⟩ := pr
      cases hc : E.contract with
      | none => simp [hc, contractNotFoundResult]
      | some c =>
        cases hcore : validateRequestAgainstCore (contractNameOf p) rp c req with
        | error m => simp [hc, hcore]
        | ok r => simp [hc, hcore, validateRequestAgainstCore_success hcore]
  · intro A p resp sc
    unfold validateResponseAgainstRun
    cases readContractM A p with
    | error m => rfl
    | ok pr =>
      obtain ⟨rp, E⟩ := pr
      cases hc : E.contract with
      | none => simp [hc, contractNotFoundResult]
      | some c =>
        simp [hc, validateResponseAgainstCore_success (contractNameOf p) rp c resp sc]

/-! ## C5: I/O faults become failed results, never escaping exceptions -/

/-- C5: When the contract file is missing or unreadable (the read fails with
message `m`), every validation operation returns `success = false` carrying
exactly the single descriptive error string built from the wrapped read
fault — the thrown `Failed to read contract file` error is caught at each
call boundary; no exception reaches the caller (each `...Run` function is
total by construction). -/
theorem validators_read_failure
    (A : Adapter) (p m : String) (req resp : JSValue) (sc : Int)
    (hfail : A.fs (resolveContractPath A.contractsBasePath p) = .error m) :
    validateContractRun A p =
      ⟨false, ["Failed to validate contract: " ++
        readFailMsg (resolveContractPath A.contractsBasePath p) m], [], []⟩ ∧
    validateRequestTypeRun A p =
      ⟨false, ["Failed to validate request type: " ++
        readFailMsg (resolveContractPath A.contractsBasePath p) m], [], []⟩ ∧
    validateResponseTypeRun A p =
      ⟨false, ["Failed to validate response type: " ++
        readFailMsg (resolveContractPath A.contractsBasePath p) m], [], []⟩ ∧
    validateRequestAgainstRun A p req =
      ⟨false, ["Failed to validate request: " ++
        readFailMsg (resolveContractPath A.contractsBasePath p) m], [], []⟩ ∧
    validateResponseAgainstRun A p resp sc =
      ⟨false, ["Failed to validate response: " ++
        readFailMsg (resolveContractPath A.contractsBasePath p) m], [], []⟩ := by
  have hr : readContractM A p = .error
      (readFailMsg (resolveContractPath A.contractsBasePath p) m) := by
    simp [readContractM, hfail]
  exact ⟨by simp [validateContractRun, hr], by simp [validateRequestTypeRun, hr],
         by simp [validateResponseTypeRun, hr], by simp [validateRequestAgainstRun, hr],
         by simp [validateResponseAgainstRun, hr]⟩

/-- An adapter whose file system rejects every read. -/
def exFailAdapter : Adapter :=
  ⟨"/contracts", fun _ => .error "ENOENT: no such file or directory",
   fun _ _ => ⟨none, false, false, false, false⟩⟩

theorem validators_read_failure_witness :
    validateContractRun exFailAdapter "a.ts" =
      ⟨false, ["Failed to validate contract: " ++
        readFailMsg (resolveContractPath exFailAdapter.contractsBasePath "a.ts")
          "ENOENT: no such file or directory"], [], []⟩ ∧
    validateRequestTypeRun exFailAdapter "a.ts" =
      ⟨false, ["Failed to validate request type: " ++
        readFailMsg (resolveContractPath exFailAdapter.contractsBasePath "a.ts")
          "ENOENT: no such file or directory"], [], []⟩ ∧
    validateResponseTypeRun exFailAdapter "a.ts" =
      ⟨false, ["Failed to validate response type: " ++
        readFailMsg (resolveContractPath exFailAdapter.contractsBasePath "a.ts")
          "ENOENT: no such file or directory"], [], []⟩ ∧
    validateRequestAgainstRun exFailAdapter "a.ts" (.obj []) =
      ⟨false, ["Failed to validate request: " ++
        readFailMsg (resolveContractPath exFailAdapter.contractsBasePath "a.ts")
          "ENOENT: no such file or directory"], [], []⟩ ∧
    validateResponseAgainstRun exFailAdapter "a.ts" (.obj []) 200 =
      ⟨false, ["Failed to validate response: " ++
        readFailMsg (resolveContractPath exFailAdapter.contractsBasePath "a.ts")
          "ENOENT: no such file or directory"], [], []⟩ :=
  validators_read_failure exFailAdapter "a.ts" "ENOENT: no such file or directory"
    (.obj []) (.obj []) 200 rfl

/-! ## C8: validateContract is deterministic in the file content -/

/-- C8: The result of `validateContract` is a function of the configured
contracts root, the (deterministic) AST front-end, and the bytes of the
referenced file alone: two runs that see the same content at the same
resolved location produce identical `ValidationResult`s (same `success`,
`errors`, `warnings` and `details`).  In particular one engine instance
calling `validateContract` twice on an unchanged contract location gets
byte-identical results. -/
theorem validateContract_deterministic
    (A1 A2 : Adapter) (p : String)
    (hbase : A1.contractsBasePath = A2.contractsBasePath)
    (hext : A1.extract = A2.extract)
    (hfs : A1.fs (resolveContractPath A1.contractsBasePath p) =
           A2.fs (resolveContractPath A2.contractsBasePath p)) :
    validateContractRun A1 p = validateContractRun A2 p := by
  obtain ⟨b1, f1, e1⟩ := A1
  obtain ⟨b2, f2, e2⟩ := A2
  simp only at hbase hext hfs
  subst hbase
  subst hext
  simp only [validateContractRun, readContractM]
  rw [hfs]

theorem validateContract_deterministic_witness :
    validateContractRun exC1Adapter "a.ts" = validateContractRun exC1Adapter "a.ts" :=
  validateContract_deterministic exC1Adapter exC1Adapter "a.ts" rfl rfl rfl

/-! ## C10: a contract lacking `path` makes validateRequestType trip its
catch, not the missing-field diagnostics -/

/-- C10: For a readable contract file whose extracted `Contract` object has
no `path` property, `validateRequestType` dereferences `contract.path.match`,
throws, and the catch converts this into `success = false` with the single
error `Failed to validate request type: ...` — not a `Missing required field`
diagnostic — and no exception escapes (the result is total). -/
theorem validateRequestType_missing_path
    (A : Adapter) (p content : String) (c : JSObject)
    (hread : A.fs (resolveContractPath A.contractsBasePath p) = .ok content)
    (hex : (A.extract (resolveContractPath A.contractsBasePath p) content).contract = some c)
    (hsrc : (A.extract (resolveContractPath A.contractsBasePath p) content).hasSource = true)
    (hnopath : jsLookup c "path" = none) :
    validateRequestTypeRun A p =
      ⟨false, ["Failed to validate request type: " ++ undefReadMsg "match"], [], []⟩ := by
  have hcore : validateRequestTypeCore (contractNameOf p)
      (resolveContractPath A.contractsBasePath p) (A.extract
        (resolveContractPath A.contractsBasePath p) content) c =
      .error (undefReadMsg "match") := by
    unfold validateRequestTypeCore
    simp [jsPathMatchE, hnopath]
  simp [validateRequestTypeRun, readContractM, hread, hex, hsrc, hcore]

/-- A contract with no `path` property at all. -/
def exC10Contract : JSObject := [("method", JSValue.str "get")]

def exC10Adapter : Adapter :=
  ⟨"/contracts", fun _ => .ok "text",
   fun _ _ => ⟨some exC10Contract, true, true, true, true⟩⟩

theorem validateRequestType_missing_path_witness :
    validateRequestTypeRun exC10Adapter "a.ts" =
      ⟨false, ["Failed to validate request type: " ++ undefReadMsg "match"], [], []⟩ :=
  validateRequestType_missing_path exC10Adapter "a.ts" "text" exC10Contract rfl rfl rfl rfl

/-! ## C4/C6: request matching against the contract -/

theorem strAt_queryObjMsg : strAt queryObjMsg 0 = some 'Q' := rfl

theorem strAt_paramsObjMsg : strAt paramsObjMsg 0 = some 'P' := rfl

theorem count_filterMap_msgs2 (msg : String → String)
    (hinj : ∀ a b, msg a = msg b → a = b) (p : String → Bool) (k : String) :
    ∀ l : List String,
      (l.filterMap fun x => if p x then some (msg x) else none).count (msg k) =
        if p k then l.count k else 0 := by
  intro l
  induction l with
  | nil => simp
  | cons x xs ih =>
    simp only [List.filterMap_cons]
    by_cases hx : p x
    · rw [if_pos hx]
      by_cases he : x = k
      · subst he
        rw [List.count_cons_self, ih, if_pos hx, List.count_cons_self, if_pos hx]
      · have hne : msg k ≠ msg x := fun e => he (hinj _ _ e.symm)
        rw [List.count_cons_of_ne hne, ih]
        by_cases hk : p k
        · have hne2 : k ≠ x := fun e => he e.symm
          rw [if_pos hk, if_pos hk, List.count_cons_of_ne hne2]
        · rw [if_neg hk, if_neg hk]
    · rw [if_neg hx, ih]
      by_cases hk : p k
      · have hne2 : k ≠ x := fun e => hx (e ▸ hk)
        rw [if_pos hk, if_pos hk, List.count_cons_of_ne hne2]
      · rw [if_neg hk, if_neg hk]

theorem containerCheck_obj_errs (d : Option JSValue) (ps : List (String × JSValue))
    (em vk pk : String) :
    (containerCheck d (some (.obj ps)) em vk pk).1 = [] := by
  unfold containerCheck
  by_cases h : jsTruthy d && jsTruthy (some (JSValue.obj ps))
  · simp [h, jsTypeofObject]
  · simp [h]

theorem containerCheck_errs_shape (d v : Option JSValue) (em vk pk : String) :
    (containerCheck d v em vk pk).1 = [] ∨ (containerCheck d v em vk pk).1 = [em] := by
  unfold containerCheck
  by_cases h : jsTruthy d && jsTruthy v
  · simp only [if_pos h]
    cases v with
    | none => left; rfl
    | some p =>
      by_cases ht : jsTypeofObject p
      · left; simp [ht]
      · right; simp [ht]
  · left; simp [h]

theorem pathParamsSectionE_obj (c : JSObject) (s : String) (ps : List (String × JSValue))
    (hpath : jsLookup c "path" = some (.str s)) :
    pathParamsSectionE c (some (.obj ps)) =
      .ok ((extractPathParams s).filterMap fun n =>
        if (jsGetProp (JSValue.obj ps) n).isNone then some (missingParamMsg n) else none) := by
  unfold pathParamsSectionE
  simp only [hpath]
  by_cases hs : jsTruthyV (JSValue.str s)
  · simp only [if_pos hs]
    by_cases hl : (extractPathParams s).isEmpty
    · have h0 : extractPathParams s = [] := List.isEmpty_iff.mp hl
      simp [hl, h0]
    · simp [hl, jsTruthyV]
  · have h0 : s = "" := by simpa [jsTruthyV] using hs
    subst h0
    simp only [if_neg hs]
    rfl

theorem pathParamsSectionE_ok_of_strpath (c : JSObject) (s : String)
    (params : Option JSValue) (hpath : jsLookup c "path" = some (.str s)) :
    ∃ e, pathParamsSectionE c params = .ok e := by
  cases he : pathParamsSectionE c params with
  | ok e => exact ⟨e, rfl⟩
  | error m =>
    exfalso
    unfold pathParamsSectionE at he
    simp only [hpath] at he
    by_cases hs : jsTruthyV (JSValue.str s)
    · simp only [if_pos hs] at he
      by_cases hl : (extractPathParams s).isEmpty
      · simp [hl] at he
      · cases params with
        | none => simp [hl] at he
        | some pv =>
          by_cases ht : jsTruthyV pv
          · simp [hl, ht] at he
          · simp [hl, ht] at he
    · simp [hs] at he

/-- The matcher's result once the path section is known to succeed, with the
request destructured from an object. -/
theorem validateRequestAgainstCore_eq {nm rp : String} {c : JSObject}
    {rl : List (String × JSValue)} {e4 : List String}
    (hsec : pathParamsSectionE c (jsGetProp (JSValue.obj rl) "params") = .ok e4) :
    validateRequestAgainstCore nm rp c (.obj rl) = .ok
      ⟨((containerCheck (jsLookup c "params") (jsGetProp (JSValue.obj rl) "params")
           paramsObjMsg "paramsValid" "paramsProvided").1 ++
        (containerCheck (jsLookup c "query") (jsGetProp (JSValue.obj rl) "query")
           queryObjMsg "queryValid" "queryProvided").1 ++ e4).isEmpty,
       (containerCheck (jsLookup c "params") (jsGetProp (JSValue.obj rl) "params")
           paramsObjMsg "paramsValid" "paramsProvided").1 ++
        (containerCheck (jsLookup c "query") (jsGetProp (JSValue.obj rl) "query")
           queryObjMsg "queryValid" "queryProvided").1 ++ e4,
       (bodyWarnings c (jsGetProp (JSValue.obj rl) "body")).1,
       [("contractName", some (.str nm)), ("path", some (.str rp)),
        ("method", jsLookup c "method"), ("apiPath", jsLookup c "path")] ++
       (containerCheck (jsLookup c "params") (jsGetProp (JSValue.obj rl) "params")
           paramsObjMsg "paramsValid" "paramsProvided").2 ++
       (containerCheck (jsLookup c "query") (jsGetProp (JSValue.obj rl) "query")
           queryObjMsg "queryValid" "queryProvided").2 ++
       (bodyWarnings c (jsGetProp (JSValue.obj rl) "body")).2⟩ := by
  have hdes : jsDestructure3 (.obj rl) = .ok (jsGetProp (JSValue.obj rl) "params",
      jsGetProp (JSValue.obj rl) "query", jsGetProp (JSValue.obj rl) "body") := rfl
  unfold validateRequestAgainstCore
  simp only [hdes, hsec]

theorem validateRequestAgainstRun_eq_core {A : Adapter} {p content : String}
    {c : JSObject} {req : JSValue} {r : VResult}
    (hread : A.fs (resolveContractPath A.contractsBasePath p) = .ok content)
    (hex : (A.extract (resolveContractPath A.contractsBasePath p) content).contract = some c)
    (hcore : validateRequestAgainstCore (contractNameOf p)
      (resolveContractPath A.contractsBasePath p) c req = .ok r) :
    validateRequestAgainstRun A p req = r := by
  simp [validateRequestAgainstRun, readContractM, hread, hex, hcore]

/-- C4: For every contract whose `path` is a string with `:name` placeholders
and every request supplying a `params` object, `validateRequestAgainstContract`
reports the error `Missing required path parameter: <n>` exactly once per
placeholder occurrence whose key is absent from `params`, and never for a
placeholder whose key is supplied. -/
theorem validateRequestAgainst_missing_path_params
    (A : Adapter) (p content : String) (c : JSObject)
    (hread : A.fs (resolveContractPath A.contractsBasePath p) = .ok content)
    (hex : (A.extract (resolveContractPath A.contractsBasePath p) content).contract = some c)
    (s : String) (hpath : jsLookup c "path" = some (.str s))
    (rl ps : List (String × JSValue))
    (hparams : jsLookupList rl "params" = some (.obj ps)) :
    ∀ n, (validateRequestAgainstRun A p (.obj rl)).errors.count (missingParamMsg n) =
      if (jsLookupList ps n).isNone then (extractPathParams s).count n else 0 := by
  have hgp : jsGetProp (JSValue.obj rl) "params" = some (JSValue.obj ps) := hparams
  have hsec : pathParamsSectionE c (jsGetProp (JSValue.obj rl) "params") =
      .ok ((extractPathParams s).filterMap fun n =>
        if (jsGetProp (JSValue.obj ps) n).isNone then some (missingParamMsg n) else none) := by
    rw [hgp]
    exact pathParamsSectionE_obj c s ps hpath
  rw [validateRequestAgainstRun_eq_core hread hex (validateRequestAgainstCore_eq hsec)]
  intro n
  rw [List.count_append, List.count_append]
  have h1 : (containerCheck (jsLookup c "params") (jsGetProp (JSValue.obj rl) "params")
      paramsObjMsg "paramsValid" "paramsProvided").1.count (missingParamMsg n) = 0 := by
    rw [hgp, containerCheck_obj_errs]
    rfl
  have h2 : (containerCheck (jsLookup c "query") (jsGetProp (JSValue.obj rl) "query")
      queryObjMsg "queryValid" "queryProvided").1.count (missingParamMsg n) = 0 := by
    rcases containerCheck_errs_shape (jsLookup c "query")
      (jsGetProp (JSValue.obj rl) "query") queryObjMsg "queryValid" "queryProvided" with h | h
    · rw [h]
      rfl
    · rw [h]
      refine count_eq_zero_of_all_ne ?_
      intro e he
      rw [List.mem_singleton.mp he]
      exact ne_of_strAt_eq strAt_queryObjMsg (strAt_missingParamMsg n) (by decide)
  rw [h1, h2, count_filterMap_msgs2 missingParamMsg (fun a b => missingParamMsg_inj)
    (fun x => (jsGetProp (JSValue.obj ps) x).isNone) n]
  simp only [Nat.zero_add]
  rfl

/-- A contract declaring a `:userId` placeholder and a params schema. -/
def exC4Contract : JSObject :=
  [("path", JSValue.str "/users/:userId"), ("method", JSValue.str "get"),
   ("params", JSValue.obj [("userId", JSValue.str "schema")]),
   ("response", JSValue.obj [("200", JSValue.bool true)])]

def exC4Adapter : Adapter :=
  ⟨"/contracts", fun _ => .ok "text",
   fun _ _ => ⟨some exC4Contract, true, true, true, true⟩⟩

theorem validateRequestAgainst_missing_path_params_witness :
    (validateRequestAgainstRun exC4Adapter "d.ts"
        (.obj [("params", JSValue.obj [])])).errors.count (missingParamMsg "userId") =
      if (jsLookupList ([] : List (String × JSValue)) "userId").isNone
      then (extractPathParams "/users/:userId").count "userId" else 0 :=
  validateRequestAgainst_missing_path_params exC4Adapter "d.ts" "text" exC4Contract
    rfl rfl "/users/:userId" rfl [("params", JSValue.obj [])] [] rfl "userId"

/-! ## C6: body advisories -/

theorem bodyWarnings_fst (c : JSObject) (body : Option JSValue) :
    (bodyWarnings c body).1 =
      (if jsTruthy (jsLookup c "body") && jsTruthy body then
        (if methodIs c "get" && jsTruthy body then [getBodyWarnMsg] else [])
      else
        match bodyMethodOf c with
        | some m => if !(jsTruthy body) then [missingBodyWarnMsg m] else []
        | none => []) := by
  unfold bodyWarnings
  by_cases h : jsTruthy (jsLookup c "body") && jsTruthy body
  · simp [h]
  · simp only [if_neg h]
    cases bodyMethodOf c with
    | none => rfl
    | some m => by_cases hb : jsTruthy body <;> simp [hb]

/-- A GET contract that declares no `body` schema. -/
def exC6Contract : JSObject :=
  [("path", JSValue.str "/a"), ("method", JSValue.str "get"),
   ("response", JSValue.obj [("200", JSValue.bool true)])]

def exC6Adapter : Adapter :=
  ⟨"/contracts", fun _ => .ok "text",
   fun _ _ => ⟨some exC6Contract, true, true, true, true⟩⟩

/-- A request carrying a body. -/
def exC6Request : JSValue := .obj [("body", JSValue.obj [("x", JSValue.num 1)])]

/-- C6 counterexample: a request carrying a body against a `get` contract
produces NO warning when the contract declares no `body` schema — the
`GET requests should not have a body` advisory is guarded by
`contract.body && body`, so the claim "emits a warning whenever a request
carries a body and the contract's method is get" is false as stated. -/
theorem validateRequestAgainst_get_body_no_warning :
    methodIs exC6Contract "get" = true ∧
    jsTruthy (jsGetProp exC6Request "body") = true ∧
    (validateRequestAgainstRun exC6Adapter "x.ts" exC6Request).warnings = [] :=
  ⟨rfl, rfl, rfl⟩

/-- C6 (amended): the warnings of `validateRequestAgainstContract` are
exactly the body advisories: the `GET requests should not have a body`
warning is emitted when the contract declares a `body` schema AND the request
carries a truthy body AND the method is `get`; the `<METHOD> request is
missing a body` warning is emitted whenever the method is post/put/patch and
the request's body is falsy. -/
theorem validateRequestAgainst_body_warning_rules
    (A : Adapter) (p content : String) (c : JSObject)
    (hread : A.fs (resolveContractPath A.contractsBasePath p) = .ok content)
    (hex : (A.extract (resolveContractPath A.contractsBasePath p) content).contract = some c)
    (s : String) (hpath : jsLookup c "path" = some (.str s))
    (rl : List (String × JSValue)) :
    (validateRequestAgainstRun A p (.obj rl)).warnings =
      (if jsTruthy (jsLookup c "body") && jsTruthy (jsGetProp (JSValue.obj rl) "body") then
        (if methodIs c "get" && jsTruthy (jsGetProp (JSValue.obj rl) "body")
         then [getBodyWarnMsg] else [])
      else
        match bodyMethodOf c with
        | some m =>
          if !(jsTruthy (jsGetProp (JSValue.obj rl) "body"))
          then [missingBodyWarnMsg m] else []
        | none => []) := by
  obtain ⟨e4, hsec⟩ := pathParamsSectionE_ok_of_strpath c s
    (jsGetProp (JSValue.obj rl) "params") hpath
  rw [validateRequestAgainstRun_eq_core hread hex (validateRequestAgainstCore_eq hsec)]
  exact bodyWarnings_fst c (jsGetProp (JSValue.obj rl) "body")

theorem validateRequestAgainst_body_warning_rules_witness :
    (validateRequestAgainstRun exC6Adapter "x.ts"
        (.obj [("body", JSValue.obj [("x", JSValue.num 1)])])).warnings =
      (if jsTruthy (jsLookup exC6Contract "body") &&
          jsTruthy (jsGetProp (JSValue.obj [("body", JSValue.obj [("x", JSValue.num 1)])])
            "body") then
        (if methodIs exC6Contract "get" &&
            jsTruthy (jsGetProp (JSValue.obj [("body", JSValue.obj [("x", JSValue.num 1)])])
              "body")
         then [getBodyWarnMsg] else [])
      else
        match bodyMethodOf exC6Contract with
        | some m =>
          if !(jsTruthy (jsGetProp (JSValue.obj [("body", JSValue.obj [("x", JSValue.num 1)])])
              "body"))
          then [missingBodyWarnMsg m] else []
        | none => []) :=
  validateRequestAgainst_body_warning_rules exC6Adapter "x.ts" "text" exC6Contract
    rfl rfl "/a" rfl [("body", JSValue.obj [("x", JSValue.num 1)])]

/-! ## C7: undeclared-status fallback in the mock synthesizer -/

/-- C7: When the requested status code is not declared (its lookup in the
response mapping is `undefined`), `generateMockResponse` falls back to the
first declared status code in the mapping's iteration order — the synthesis
proceeds exactly as if `parseInt(firstKey, 10)` had been requested — and when
the response mapping is absent or empty it returns the failed mock
`{data: null, type: "error", success: false}`. -/
theorem generateMock_status_fallback
    (env : MockEnv) (name : String) (c : JSObject) (sc : Int)
    (hundeclared : respSchemaFor c sc = none) :
    (respStatusesOf c = [] → generateMockCore env name c sc = failedMock) ∧
    (∀ k rest, respStatusesOf c = k :: rest →
      generateMockCore env name c sc = mockBody env name (jsParseInt10 k)) := by
  have hcond : (!(jsTruthy (jsLookup c "response")) ||
      !(jsTruthy (respSchemaFor c sc))) = true := by
    rw [hundeclared]
    simp [jsTruthy]
  constructor
  · intro h0
    unfold generateMockCore
    rw [if_pos hcond, h0]
  · intro k rest hk
    unfold generateMockCore
    rw [if_pos hcond, hk]

/-- A contract declaring only status `201`. -/
def exC7Contract : JSObject :=
  [("path", JSValue.str "/a"), ("method", JSValue.str "get"),
   ("response", JSValue.obj [("201", JSValue.obj [("description", JSValue.str "created")])])]

/-- One concrete draw of the synthesizer's random helpers and clock. -/
def exMockEnv : MockEnv :=
  ⟨fun _ => "rid", fun _ => "hash", fun _ => "ab...yz", fun _ => 7,
   "2026-01-01T00:00:00.000Z", "2025-12-31T00:00:00.000Z"⟩

theorem generateMock_status_fallback_witness :
    (respStatusesOf exC7Contract = [] →
      generateMockCore exMockEnv "user.get" exC7Contract 200 = failedMock) ∧
    (∀ k rest, respStatusesOf exC7Contract = k :: rest →
      generateMockCore exMockEnv "user.get" exC7Contract 200 =
        mockBody exMockEnv "user.get" (jsParseInt10 k)) :=
  generateMock_status_fallback exMockEnv "user.get" exC7Contract 200 rfl
